import Mathlib

/-!
# Verification of torrent_mover.py

A shallow embedding of `torrent_mover.py` (a download classifier/relocator)
together with proofs about the claims of its specification.

Modelling conventions:
* Python machine integers (file sizes, counts) are `Nat`; the floating-point
  size percentage in `is_movie_with_sample` is modelled with exact rational
  arithmetic (`ℚ`), matching the arithmetic expression of the source.
* Fallible code is embedded in `Except Unit`: `.error ()` models an uncaught
  Python exception (TypeError, ZeroDivisionError, IndexError); `Option` models
  the `False`-on-failure protocol of `get_episode_data` / `get_series_data`.
* The regular-expression matching of `re.compile(p, re.IGNORECASE).search(s)`
  is embedded by a backtracking matcher over the element sequence of each of
  the three fixed patterns (`SERIES_PATTERNS`), with Python's leftmost-first
  search order, lazy/greedy repetition order, and `.` not matching a newline.
* Filesystem effects (`os.path.exists`, `os.makedirs`, `shutil.copyfile`) are
  state-threaded over `FsState`; copy failures (the bare `except` in
  `move_torrent_file`) are driven by an oracle `cf : String → String → Bool`
  telling whether copying a given source to a given target raises.
* Logging is ignored; it has no effect on control flow.
-/

/-- One entry of `torrent.files()`: a name (path relative to the download
root) and a byte size.  Mirrors the `file_info` objects read by
`get_video_files`. -/
structure FileInfo where
  name : String
  size : Nat
deriving DecidableEq

/-- `os.path.basename`, restricted to `'/'` separators (POSIX): the suffix
after the last slash, on explicit character lists. -/
def basenameChars (s : List Char) : List Char :=
  (s.reverse.takeWhile (fun c => c ≠ '/')).reverse

/-- `os.path.join(a, b)` for a relative second component. -/
def joinPath (a b : String) : String := a ++ "/" ++ b

/-- The extension produced by `os.path.splitext(name)[1]`: the part of the
basename from its last dot on, where leading dots of the basename never start
an extension. -/
def splitextExt (name : List Char) : List Char :=
  let core := (basenameChars name).dropWhile (fun c => c = '.')
  if core.contains '.' then
    '.' :: (core.reverse.takeWhile (fun c => c ≠ '.')).reverse
  else []

/-- `VIDEO_FILE_EXTENSIONS` of the source. -/
def VIDEO_FILE_EXTENSIONS : List String := [".mp4", ".mkv", ".avi"]

/-- `get_video_files`: keep the entries whose `splitext` extension is a video
extension, preserving order. -/
def get_video_files (files : List FileInfo) : List FileInfo :=
  files.filter (fun f => VIDEO_FILE_EXTENSIONS.contains (String.mk (splitextExt f.name.data)))

/-- Default `STRIP_CHARS` of the source: `' ._-'`. -/
def STRIP_CHARS : List Char := [' ', '.', '_', '-']

/-!
## The regular-expression engine

Each of the three `SERIES_PATTERNS` is a plain sequence of the following
elements: a case-insensitive literal character, an optional any-character
(`.?`), an optional literal (`\[?`, `\]?`), a greedy digit repetition
`(\d{lo,hi})` captured as a group, a lazy any-star (`(.*?)` or `.*?`) and a
greedy any-star (`(.*)`).  `matchElems` is a standard backtracking matcher
over such a sequence: lazy stars try shorter splits first, greedy elements
try longer consumption first, and `.` never matches a newline, exactly as in
Python's `re`.  Group 0 is used for non-capturing elements; groups beyond 3
are matched but their captures are discarded, since the source only ever
reads `match.group(1)`, `group(2)` and `group(3)`. -/

/-- One element of a compiled pattern. -/
inductive RElem where
  /-- a literal character, compared case-insensitively (`re.IGNORECASE`) -/
  | lit (c : Char)
  /-- `.?`: greedily optional any-character (not a newline) -/
  | anyOpt
  /-- an optional literal such as `\[?` (greedy) -/
  | litOpt (c : Char)
  /-- `(\d{lo,hi})` captured as group `g` (greedy) -/
  | digits (lo hi g : Nat)
  /-- `(.*?)` (or `.*?` with `g = 0`): lazy star of any-characters -/
  | starLazy (g : Nat)
  /-- `(.*)`: greedy star of any-characters -/
  | starGreedy (g : Nat)
deriving DecidableEq

/-- The captures of groups 1–3 (the only groups the source reads). -/
structure Caps where
  g1 : List Char
  g2 : List Char
  g3 : List Char
deriving DecidableEq

/-- The empty capture record a match attempt starts from. -/
def caps0 : Caps := ⟨[], [], []⟩

/-- Record the capture of group `g`; groups other than 1–3 are discarded. -/
def setCap (g : Nat) (v : List Char) (c : Caps) : Caps :=
  match g with
  | 1 => { c with g1 := v }
  | 2 => { c with g2 := v }
  | 3 => { c with g3 := v }
  | _ => c

/-- Can a run of `.` consume these characters? (`.` does not match `'\n'`.) -/
def noNL (l : List Char) : Bool := l.all (fun c => c ≠ '\n')

/-- `[hi, hi-1, ..., lo]`: the candidate widths of a greedy `{lo,hi}`
repetition, largest first. -/
def descRange (lo hi : Nat) : List Nat :=
  (List.range (hi + 1 - lo)).map (fun j => hi - j)

/-- The backtracking matcher: match the element sequence against a prefix of
`s` (the rest of `s` may remain), returning the captures of the first match
in Python's backtracking order. -/
def matchElems : List RElem → List Char → Caps → Option Caps
  | [], _, caps => some caps
  | .lit c :: rest, s, caps =>
    match s with
    | [] => none
    | a :: s' => if a.toLower = c.toLower then matchElems rest s' caps else none
  | .anyOpt :: rest, s, caps =>
    match s with
    | [] => matchElems rest [] caps
    | a :: s' =>
      if a ≠ '\n' then (matchElems rest s' caps).orElse (fun _ => matchElems rest s caps)
      else matchElems rest s caps
  | .litOpt c :: rest, s, caps =>
    match s with
    | [] => matchElems rest [] caps
    | a :: s' =>
      if a.toLower = c.toLower then (matchElems rest s' caps).orElse (fun _ => matchElems rest s caps)
      else matchElems rest s caps
  | .digits lo hi g :: rest, s, caps =>
    (descRange lo hi).findSome? (fun k =>
      let ds := s.take k
      if ds.length == k && ds.all Char.isDigit then
        matchElems rest (s.drop k) (setCap g ds caps)
      else none)
  | .starLazy g :: rest, s, caps =>
    (List.range (s.length + 1)).findSome? (fun i =>
      if noNL (s.take i) then matchElems rest (s.drop i) (setCap g (s.take i) caps)
      else none)
  | .starGreedy g :: rest, s, caps =>
    ((List.range (s.length + 1)).reverse).findSome? (fun i =>
      if noNL (s.take i) then matchElems rest (s.drop i) (setCap g (s.take i) caps)
      else none)

/-- `re.search`: try a match at every start position, leftmost first. -/
def reSearch (elems : List RElem) (s : List Char) : Option Caps :=
  (List.range (s.length + 1)).findSome? (fun p => matchElems elems (s.drop p) caps0)

/-- Pattern `'(.*?)S(\d{1,2})E(\d{2})(.*)'` of `SERIES_PATTERNS`. -/
def seriesPattern1 : List RElem :=
  [.starLazy 1, .lit 'S', .digits 1 2 2, .lit 'E', .digits 2 2 3, .starGreedy 4]

/-- Pattern `'(.*?)\[?(\d{1,2})x(\d{2})\]?(.*)'` of `SERIES_PATTERNS`. -/
def seriesPattern2 : List RElem :=
  [.starLazy 1, .litOpt '[', .digits 1 2 2, .lit 'x', .digits 2 2 3, .litOpt ']', .starGreedy 4]

/-- Pattern `'(.*?)Season.?(\d{1,2}).*?Episode.?(\d{1,2})(.*)'` of
`SERIES_PATTERNS`. -/
def seriesPattern3 : List RElem :=
  [.starLazy 1, .lit 'S', .lit 'e', .lit 'a', .lit 's', .lit 'o', .lit 'n', .anyOpt,
   .digits 1 2 2, .starLazy 0,
   .lit 'E', .lit 'p', .lit 'i', .lit 's', .lit 'o', .lit 'd', .lit 'e', .anyOpt,
   .digits 1 2 3, .starGreedy 4]

/-- `SERIES_PATTERNS`, in source order. -/
def SERIES_PATTERNS : List (List RElem) := [seriesPattern1, seriesPattern2, seriesPattern3]

/-- The value of a decimal digit string, as computed by Python's `int`. -/
def digitsToNat (l : List Char) : Nat := l.foldl (fun a c => a * 10 + (c.toNat - 48)) 0

/-- `f-string` formatting `f"{n:02d}"` for a natural number. -/
def pad2 (n : Nat) : String := if n < 10 then "0" ++ toString n else toString n

/-- Python `str.strip(chars)`: drop the leading and trailing characters that
belong to `cs`. -/
def stripChars (cs : List Char) (s : List Char) : List Char :=
  ((s.dropWhile (fun c => cs.contains c)).reverse.dropWhile (fun c => cs.contains c)).reverse

/-- The dictionary built by `get_episode_data` on a successful match. -/
structure EpisodeData where
  series_name : String
  season_num : String
  episode_num : String
  filename : String
deriving DecidableEq

/-- `get_episode_data`: try the three patterns in order against the basename
of the filename; on the first match, strip the configured characters from
group 1 and zero-pad the integer values of groups 2 and 3 to two digits.
`none` models the Python return value `False`.  The configured `STRIP_CHARS`
is passed explicitly as `strip`. -/
def get_episode_data (strip : List Char) (filename : String) : Option EpisodeData :=
  SERIES_PATTERNS.findSome? (fun pat =>
    (reSearch pat (basenameChars filename.data)).map (fun caps =>
      { series_name := String.mk (stripChars strip caps.g1)
        season_num := pad2 (digitsToNat caps.g2)
        episode_num := pad2 (digitsToNat caps.g3)
        filename := filename }))

example : get_episode_data STRIP_CHARS "Show.S3E07.mkv" =
    some ⟨"Show", "03", "07", "Show.S3E07.mkv"⟩ := by decide

example : get_episode_data STRIP_CHARS "Show.S3E7.mkv" = none := by decide

example : get_episode_data STRIP_CHARS "S03E07.mkv" = some ⟨"", "03", "07", "S03E07.mkv"⟩ := by
  decide

example : get_episode_data STRIP_CHARS "dir/My_Show_[2x05].avi" =
    some ⟨"My_Show", "02", "05", "dir/My_Show_[2x05].avi"⟩ := by decide

example : get_episode_data STRIP_CHARS "A Show Season 2 Episode 5.mkv" =
    some ⟨"A Show", "02", "05", "A Show Season 2 Episode 5.mkv"⟩ := by decide

example : get_episode_data STRIP_CHARS "Movie.mkv" = none := by decide

/-!
## The classifier
-/

/-- Decidable equality of `Except` results, used to evaluate the embedded
functions on concrete inputs. -/
instance {ε α : Type} [DecidableEq ε] [DecidableEq α] : DecidableEq (Except ε α) := fun x y =>
  match x, y with
  | .error a, .error b =>
    match decEq a b with
    | isTrue h => isTrue (by rw [h])
    | isFalse h => isFalse (fun hh => h (by injection hh))
  | .error _, .ok _ => isFalse (fun hh => Except.noConfusion hh)
  | .ok _, .error _ => isFalse (fun hh => Except.noConfusion hh)
  | .ok a, .ok b =>
    match decEq a b with
    | isTrue h => isTrue (by rw [h])
    | isFalse h => isFalse (fun hh => h (by injection hh))

/-- The dictionary built by `get_series_data`: the common series name, the
season dictionary (insertion-ordered, as a Python `dict`), and its size. -/
structure SeriesData where
  series_name : String
  seasons : List (String × List EpisodeData)
  seasons_count : Nat
deriving DecidableEq

/-- `seasons.setdefault`-style insertion used by `get_series_data`: append to
an existing season key, or add a new key at the end (Python dicts preserve
insertion order). -/
def seasonsInsert (seasons : List (String × List EpisodeData)) (k : String)
    (e : EpisodeData) : List (String × List EpisodeData) :=
  if seasons.any (fun p => p.1 = k) then
    seasons.map (fun p => if p.1 = k then (p.1, p.2 ++ [e]) else p)
  else seasons ++ [(k, [e])]

/-- The `for video_file in video_files` loop of `get_series_data`, threading
the `series_name`/`seasons` state.  When `get_episode_data` returns `False`
the source immediately subscripts it (`episode_data['series_name']`), raising
a `TypeError`: this is `.error ()`.  An inner `none` models the
`return False` taken on a series-name mismatch. -/
def seriesLoop (strip : List Char) :
    List FileInfo → Option String → List (String × List EpisodeData) →
    Except Unit (Option (Option String × List (String × List EpisodeData)))
  | [], name?, seasons => .ok (some (name?, seasons))
  | vf :: rest, name?, seasons =>
    match get_episode_data strip vf.name with
    | none => .error ()
    | some ep =>
      match name? with
      | none => seriesLoop strip rest (some ep.series_name) (seasonsInsert seasons ep.season_num ep)
      | some n =>
        if ep.series_name = n then
          seriesLoop strip rest (some n) (seasonsInsert seasons ep.season_num ep)
        else .ok none

/-- `get_series_data`: group the video files by season.  `.ok none` models
the Python return value `False` (mismatching series names, or no seasons). -/
def get_series_data (strip : List Char) (video_files : List FileInfo) :
    Except Unit (Option SeriesData) :=
  match seriesLoop strip video_files none [] with
  | .error e => .error e
  | .ok none => .ok none
  | .ok (some (name?, seasons)) =>
    if seasons.length ≠ 0 then
      .ok (some { series_name := name?.getD "", seasons := seasons,
                  seasons_count := seasons.length })
    else .ok none

/-- The normalized percentage size difference of `is_movie_with_sample`:
`size_diff = (files[1].size - files[0].size) / files[0].size * 100`, made
positive when negative, divided by 10 when above 100.  Python's float
division is modelled by exact rational division. -/
def sample_diff (s0 s1 : Nat) : ℚ :=
  let d : ℚ := ((s1 : ℚ) - (s0 : ℚ)) / (s0 : ℚ) * 100
  if d < 0 then d * (-1) else if d > 100 then d / 10 else d

/-- `is_movie_with_sample`: for exactly two video files, declare a sample
when the normalized size difference is at least `90.0`.  Dividing by a zero
first size raises `ZeroDivisionError` (`.error ()`). -/
def is_movie_with_sample (video_files : List FileInfo) : Except Unit Bool :=
  match video_files with
  | [f0, f1] =>
    if f0.size = 0 then .error ()
    else .ok (decide (90 ≤ sample_diff f0.size f1.size))
  | _ => .ok false

/-- `TorrentType` of the source. -/
inductive TorrentType where
  | UNKNOWN
  | MOVIE
  | MOVIE_WITH_SAMPLE
  | EPISODE
  | SEASON
  | SERIES
deriving DecidableEq

/-- The `type_data` second return value of `get_torrent_type` (an episode
dictionary, or a series dictionary). -/
inductive TypeData where
  | episode (e : EpisodeData)
  | series (s : SeriesData)
deriving DecidableEq

/-- `get_torrent_type`, the classifier: one file is an episode or a movie;
otherwise the sample heuristic is tested first, then series grouping, and
everything else is `UNKNOWN`. -/
def get_torrent_type (strip : List Char) (video_files : List FileInfo) :
    Except Unit (TorrentType × Option TypeData) :=
  match video_files with
  | [f] =>
    match get_episode_data strip f.name with
    | some e => .ok (.EPISODE, some (.episode e))
    | none => .ok (.MOVIE, none)
  | _ =>
    match is_movie_with_sample video_files with
    | .error e => .error e
    | .ok true => .ok (.MOVIE_WITH_SAMPLE, none)
    | .ok false =>
      match get_series_data strip video_files with
      | .error e => .error e
      | .ok (some sd) =>
        if sd.seasons_count = 1 then .ok (.SEASON, some (.series sd))
        else .ok (.SERIES, some (.series sd))
      | .ok none => .ok (.UNKNOWN, none)

example : get_torrent_type STRIP_CHARS [⟨"Movie.mkv", 700⟩] = .ok (.MOVIE, none) := by decide

example : get_torrent_type STRIP_CHARS [⟨"Show.S3E07.mkv", 700⟩] =
    .ok (.EPISODE, some (.episode ⟨"Show", "03", "07", "Show.S3E07.mkv"⟩)) := by decide

/-!
## Placement, relocation and the orchestrator

The module-level configuration globals of the source (`DIR_DOWNLOAD`,
`DIR_FILM`, `DIR_SERIES`, `SEASON_PREFIX`, `STRIP_CHARS`, `DRY_RUN`) are
threaded explicitly as a `Config` value; `load_config` only assigns them and
is not modelled further.  The filesystem is a state: the set of existing
paths plus logs of the directories created by `os.makedirs` and of the
`copyfile` calls actually performed. -/

/-- The configuration globals of the source. -/
structure Config where
  dir_download : String
  dir_film : String
  dir_series : String
  season_pfx : String
  strip_chars : List Char
  dry_run : Bool
deriving DecidableEq

/-- The filesystem state: which paths exist, which directories `os.makedirs`
created, and which `copyfile(source, target)` calls were performed. -/
structure FsState where
  existing : List String
  made_dirs : List String
  copies : List (String × String)
deriving DecidableEq

/-- One job of the remote client, as read by `main`. -/
structure Torrent where
  id : Nat
  name : String
  status : String
  files : List FileInfo
  is_finished : Bool
deriving DecidableEq

/-- `TORRENT_COMPLETE_STATUS` of the source. -/
def TORRENT_COMPLETE_STATUS : List String := ["seeding", "stopped"]

/-- `get_season_dir`: compute the season directory path and create it
(recursively) when it does not exist — except in dry-run mode, where nothing
is created. -/
def get_season_dir (cfg : Config) (st : FsState) (series_name season_num : String) :
    String × FsState :=
  let season_dir := joinPath (joinPath cfg.dir_series series_name) (cfg.season_pfx ++ season_num)
  if st.existing.contains season_dir then (season_dir, st)
  else if cfg.dry_run then (season_dir, st)
  else (season_dir, { st with existing := season_dir :: st.existing,
                              made_dirs := st.made_dirs ++ [season_dir] })

/-- `move_torrent_file`: copy `source_file` from the download directory into
`target_dir`, skipping the copy when a file of the same basename already
exists there, and skipping it in dry-run mode.  The oracle `cf source target`
tells whether `copyfile` raises; the bare `except` turns that into the return
value `false`. -/
def move_torrent_file (cfg : Config) (cf : String → String → Bool) (st : FsState)
    (source_file target_dir : String) : Bool × FsState :=
  let target := joinPath target_dir (String.mk (basenameChars source_file.data))
  if st.existing.contains target then (true, st)
  else
    let source := joinPath cfg.dir_download source_file
    if cfg.dry_run then (true, st)
    else if cf source target then (false, st)
    else (true, { st with existing := target :: st.existing,
                          copies := st.copies ++ [(source, target)] })

/-- The file picked by the `MOVIE_WITH_SAMPLE` branch of `main`:
`video_files[1]` if `video_files[0].size < video_files[1].size`, else
`video_files[0]`. -/
def sampleSelect (v0 v1 : FileInfo) : FileInfo :=
  if v0.size < v1.size then v1 else v0

/-- One `get_season_dir` + `move_torrent_file` step of `main` on one episode
dictionary (the body shared by the `EPISODE` branch and the season loops):
the relocation result together with the updated filesystem state. -/
def relocateOneEpisode (cfg : Config) (cf : String → String → Bool) (st : FsState)
    (ep : EpisodeData) : Bool × FsState :=
  move_torrent_file cfg cf (get_season_dir cfg st ep.series_name ep.season_num).2
    ep.filename (get_season_dir cfg st ep.series_name ep.season_num).1

/-- The inner `for episode in type_data['seasons'][season]` loop of `main`:
relocate the episodes of one season in order, breaking on the first failure.
Returns (broke?, final `moved`, the accumulated per-file results, state). -/
def relocateEpisodes (cfg : Config) (cf : String → String → Bool) :
    FsState → List EpisodeData → Bool → List Bool → (Bool × Bool × List Bool × FsState)
  | st, [], moved, log => (false, moved, log, st)
  | st, ep :: rest, _, log =>
    if (relocateOneEpisode cfg cf st ep).1 then
      relocateEpisodes cfg cf (relocateOneEpisode cfg cf st ep).2 rest
        (relocateOneEpisode cfg cf st ep).1 (log ++ [(relocateOneEpisode cfg cf st ep).1])
    else (true, (relocateOneEpisode cfg cf st ep).1,
      log ++ [(relocateOneEpisode cfg cf st ep).1], (relocateOneEpisode cfg cf st ep).2)

/-- The outer `for season in type_data['seasons']` loop of `main`, with the
`for`–`else`–`break` construct: a season whose inner loop broke aborts all
remaining seasons.  Returns (final `moved`, per-file results, state). -/
def relocateSeasons (cfg : Config) (cf : String → String → Bool) :
    FsState → List (String × List EpisodeData) → Bool → List Bool → (Bool × List Bool × FsState)
  | st, [], moved, log => (moved, log, st)
  | st, season :: rest, moved, log =>
    match relocateEpisodes cfg cf st season.2 moved log with
    | (true, m, log1, st1) => (m, log1, st1)
    | (false, m, log1, st1) => relocateSeasons cfg cf st1 rest m log1

/-- The result triple of a branch of `main` that performs a single
`move_torrent_file` call: the `moved` flag, the one-element result log, and
the updated state. -/
def singleMove (cfg : Config) (cf : String → String → Bool) (st : FsState)
    (src tdir : String) : Bool × List Bool × FsState :=
  ((move_torrent_file cfg cf st src tdir).1, [(move_torrent_file cfg cf st src tdir).1],
    (move_torrent_file cfg cf st src tdir).2)

/-- The `elif` cascade of `main` dispatching on the classified torrent type:
given the type, its `type_data` and the video files, perform the relocations
of this torrent.  Returns the final value of `moved`, the list of
`move_torrent_file` results in order, and the filesystem state.  `.error ()`
models an uncaught exception from indexing `video_files` or subscripting
`type_data` outside the classifier's contract (`IndexError` / `TypeError`);
these arms are unreachable from `get_torrent_type`'s actual results. -/
def processClassified (cfg : Config) (cf : String → String → Bool) (st : FsState) :
    TorrentType → Option TypeData → List FileInfo →
    Except Unit (Bool × List Bool × FsState)
  | .MOVIE, _, v0 :: _ =>
    .ok (singleMove cfg cf st v0.name cfg.dir_film)
  | .MOVIE, _, [] => .error ()
  | .MOVIE_WITH_SAMPLE, _, v0 :: v1 :: _ =>
    .ok (singleMove cfg cf st (sampleSelect v0 v1).name cfg.dir_film)
  | .MOVIE_WITH_SAMPLE, _, _ => .error ()
  | .EPISODE, some (.episode e), _ =>
    .ok ((relocateOneEpisode cfg cf st e).1, [(relocateOneEpisode cfg cf st e).1],
      (relocateOneEpisode cfg cf st e).2)
  | .EPISODE, _, _ => .error ()
  | .SEASON, some (.series sd), _ =>
    .ok (relocateSeasons cfg cf st sd.seasons false [])
  | .SEASON, _, _ => .error ()
  | .SERIES, some (.series sd), _ =>
    .ok (relocateSeasons cfg cf st sd.seasons false [])
  | .SERIES, _, _ => .error ()
  | .UNKNOWN, _, _ => .ok (false, [], st)

/-- The body of the `for torrent in trans_client.get_torrents()` loop of
`main` for one torrent: the status check, the video-file filter, the
classification and the per-type relocation dispatch. -/
def processOne (cfg : Config) (cf : String → String → Bool) (st : FsState) (t : Torrent) :
    Except Unit (Bool × List Bool × FsState) :=
  if TORRENT_COMPLETE_STATUS.contains t.status then
    if (get_video_files t.files).length ≠ 0 then
      match get_torrent_type cfg.strip_chars (get_video_files t.files) with
      | .error e => .error e
      | .ok (torrent_type, type_data) =>
        processClassified cfg cf st torrent_type type_data (get_video_files t.files)
    else .ok (false, [], st)
  else .ok (false, [], st)

/-- The whole torrent loop of `main`, accumulating `ids_to_remove` and the
per-torrent relocation results.  A torrent's id is appended exactly when its
final `moved` is true and `torrent.is_finished` holds. -/
def processTorrents (cfg : Config) (cf : String → String → Bool) :
    FsState → List Torrent → List Nat → List (List Bool) →
    Except Unit (FsState × List Nat × List (List Bool))
  | st, [], ids, logs => .ok (st, ids, logs)
  | st, t :: rest, ids, logs =>
    match processOne cfg cf st t with
    | .error e => .error e
    | .ok (moved, log, st1) =>
      processTorrents cfg cf st1 rest
        (if moved && t.is_finished then ids ++ [t.id] else ids) (logs ++ [log])

/-- `main` after a successful connection: process every torrent, then issue
the single batch removal request — suppressed when `ids_to_remove` is empty
or in dry-run mode.  The last component is the removal request actually sent
to the remote client (`none` when no request is issued). -/
def main_run (cfg : Config) (cf : String → String → Bool) (st0 : FsState)
    (torrents : List Torrent) :
    Except Unit (FsState × List Nat × List (List Bool) × Option (List Nat)) :=
  match processTorrents cfg cf st0 torrents [] [] with
  | .error e => .error e
  | .ok (st, ids, logs) =>
    .ok (st, ids, logs, if ids.length ≠ 0 ∧ cfg.dry_run = false then some ids else none)

/-- A fixed configuration with the source's default directory layout, used
for concrete evaluations. -/
def defaultCfg : Config :=
  { dir_download := "downloads", dir_film := "films", dir_series := "series",
    season_pfx := "s", strip_chars := STRIP_CHARS, dry_run := false }

/-- The empty filesystem. -/
def fs0 : FsState := ⟨[], [], []⟩

/-- A copy oracle under which no `copyfile` call ever raises. -/
def cfOk : String → String → Bool := fun _ _ => false

/-- A copy oracle under which every `copyfile` call raises. -/
def cfBad : String → String → Bool := fun _ _ => true

example :
    processOne defaultCfg cfOk fs0 ⟨7, "m", "seeding", [⟨"Movie.mkv", 700⟩], true⟩ =
      .ok (true, [true], ⟨["films/Movie.mkv"], [], [("downloads/Movie.mkv", "films/Movie.mkv")]⟩) := by
  decide

example :
    main_run defaultCfg cfOk fs0 [⟨7, "m", "seeding", [⟨"Movie.mkv", 700⟩], true⟩] =
      .ok (⟨["films/Movie.mkv"], [], [("downloads/Movie.mkv", "films/Movie.mkv")]⟩,
           [7], [[true]], some [7]) := by decide

/-!
## Evaluation lemmas for the sample heuristic

`ℚ` arithmetic does not reduce definitionally, so concrete values of
`sample_diff` / `is_movie_with_sample` are established once here and reused.
-/

lemma sample_diff_100_1000 : sample_diff 100 1000 = 90 := by
  unfold sample_diff; norm_num

lemma sample_diff_100_150 : sample_diff 100 150 = 50 := by
  unfold sample_diff; norm_num

lemma is_sample_a100_b150 :
    is_movie_with_sample [⟨"a.mkv", 100⟩, ⟨"b.mkv", 150⟩] = .ok false := by
  show Except.ok (decide (90 ≤ sample_diff 100 150)) = .ok false
  rw [sample_diff_100_150]; norm_num

lemma is_sample_a100_b1000 :
    is_movie_with_sample [⟨"a.mkv", 100⟩, ⟨"b.mkv", 1000⟩] = .ok true := by
  show Except.ok (decide (90 ≤ sample_diff 100 1000)) = .ok true
  rw [sample_diff_100_1000]; norm_num

/-- Classifying two non-matching movie files of sizes 100 and 150: the sample
heuristic rejects them, `get_series_data` subscripts the `False` returned by
`get_episode_data` and raises `TypeError`. -/
lemma tt_a100_b150 :
    get_torrent_type STRIP_CHARS [⟨"a.mkv", 100⟩, ⟨"b.mkv", 150⟩] = .error () := by
  unfold get_torrent_type
  rw [is_sample_a100_b150]
  decide

lemma tt_a100_b1000 :
    get_torrent_type STRIP_CHARS [⟨"a.mkv", 100⟩, ⟨"b.mkv", 1000⟩] =
      .ok (.MOVIE_WITH_SAMPLE, none) := by
  unfold get_torrent_type
  rw [is_sample_a100_b1000]

/-- When the sample heuristic accepts, `get_torrent_type` returns the
`MOVIE_WITH_SAMPLE` shape with no attached data. -/
lemma tt_sample_of_ok_true (strip : List Char) (f0 f1 : FileInfo)
    (rest : List FileInfo)
    (h : is_movie_with_sample (f0 :: f1 :: rest) = .ok true) :
    get_torrent_type strip (f0 :: f1 :: rest) = .ok (.MOVIE_WITH_SAMPLE, none) := by
  unfold get_torrent_type
  rw [h]

/-- When the sample heuristic rejects and the grouping raises, the classifier
propagates the exception. -/
lemma tt_series_error (strip : List Char) (f0 f1 : FileInfo) (rest : List FileInfo)
    (e : Unit) (h : is_movie_with_sample (f0 :: f1 :: rest) = .ok false)
    (hsd : get_series_data strip (f0 :: f1 :: rest) = .error e) :
    get_torrent_type strip (f0 :: f1 :: rest) = .error e := by
  unfold get_torrent_type
  rw [h, hsd]

/-- When the sample heuristic rejects and the grouping returns `False`, the
classifier returns `UNKNOWN`. -/
lemma tt_series_none (strip : List Char) (f0 f1 : FileInfo) (rest : List FileInfo)
    (h : is_movie_with_sample (f0 :: f1 :: rest) = .ok false)
    (hsd : get_series_data strip (f0 :: f1 :: rest) = .ok none) :
    get_torrent_type strip (f0 :: f1 :: rest) = .ok (.UNKNOWN, none) := by
  unfold get_torrent_type
  rw [h, hsd]

/-- When the sample heuristic rejects and the grouping succeeds, the
classifier returns `SEASON` or `SERIES` according to the season count. -/
lemma tt_series_some (strip : List Char) (f0 f1 : FileInfo) (rest : List FileInfo)
    (sd : SeriesData) (h : is_movie_with_sample (f0 :: f1 :: rest) = .ok false)
    (hsd : get_series_data strip (f0 :: f1 :: rest) = .ok (some sd)) :
    get_torrent_type strip (f0 :: f1 :: rest) =
      if sd.seasons_count = 1 then .ok (.SEASON, some (.series sd))
      else .ok (.SERIES, some (.series sd)) := by
  unfold get_torrent_type
  rw [h, hsd]

/-- When the sample heuristic rejects a multi-file job, no execution path of
the classifier can produce `MOVIE_WITH_SAMPLE`. -/
lemma tt_not_sample_of_ok_false (strip : List Char) (f0 f1 : FileInfo)
    (rest : List FileInfo)
    (h : is_movie_with_sample (f0 :: f1 :: rest) = .ok false) :
    ∀ r, get_torrent_type strip (f0 :: f1 :: rest) = .ok r →
      r.1 ≠ TorrentType.MOVIE_WITH_SAMPLE := by
  intro r hr
  cases hsd : get_series_data strip (f0 :: f1 :: rest) with
  | error e =>
    rw [tt_series_error strip f0 f1 rest e h hsd] at hr
    exact Except.noConfusion hr
  | ok sd? =>
    cases sd? with
    | none =>
      rw [tt_series_none strip f0 f1 rest h hsd] at hr
      cases hr
      decide
    | some sd =>
      rw [tt_series_some strip f0 f1 rest sd h hsd] at hr
      by_cases h1 : sd.seasons_count = 1
      · rw [if_pos h1] at hr
        cases hr
        intro hh
        exact TorrentType.noConfusion hh
      · rw [if_neg h1] at hr
        cases hr
        intro hh
        exact TorrentType.noConfusion hh

/-- With a positive first size, `is_movie_with_sample` on exactly two files
computes the threshold test on `sample_diff`. -/
lemma is_sample_of_pos (f0 f1 : FileInfo) (h : f0.size ≠ 0) :
    is_movie_with_sample [f0, f1] = .ok (decide (90 ≤ sample_diff f0.size f1.size)) := by
  show (if f0.size = 0 then Except.error ()
        else Except.ok (decide (90 ≤ sample_diff f0.size f1.size))) =
      Except.ok (decide (90 ≤ sample_diff f0.size f1.size))
  rw [if_neg h]

/-- Two files of equal positive size have a normalized size difference of 0,
so the sample heuristic rejects them. -/
lemma is_sample_equal_sizes (f0 f1 : FileInfo) (h : f0.size = f1.size)
    (hpos : f0.size ≠ 0) : is_movie_with_sample [f0, f1] = .ok false := by
  rw [is_sample_of_pos f0 f1 hpos]
  have hd : sample_diff f0.size f1.size = 0 := by
    unfold sample_diff
    rw [← h]
    norm_num
  rw [hd]
  norm_num

/-!
## Claims C1, C2, C4, C8, C10
-/

/-- C1: the claim states that a multi-file job with a file whose basename
matches none of the series patterns is classified `Unknown` without error.
The code instead raises: `get_series_data` subscripts the `False` returned
by `get_episode_data` (`episode_data['series_name']`), a `TypeError`.  This
theorem evaluates the classifier at the failing input — two non-matching
video files of sizes 100 and 150 (sizes chosen so the sample heuristic does
not fire) — and shows the run aborts instead of producing `UNKNOWN`. -/
theorem claim1_unmatched_file_raises :
    get_torrent_type STRIP_CHARS [⟨"a.mkv", 100⟩, ⟨"b.mkv", 150⟩] = .error () :=
  tt_a100_b150

/-- C2: for a two-video-file job (with the divisor positive, as required for
the heuristic's division to be defined), the classifier returns
`MOVIE_WITH_SAMPLE` exactly when the normalized size-difference magnitude
`sample_diff` is at least 90; sizes (100, 1000) give exactly 90 and classify
as `MOVIE_WITH_SAMPLE`, sizes (100, 150) give 50 and do not. -/
theorem claim2_sample_threshold :
    (∀ (strip : List Char) (f0 f1 : FileInfo), 0 < f0.size →
      (get_torrent_type strip [f0, f1] = .ok (.MOVIE_WITH_SAMPLE, none) ↔
        90 ≤ sample_diff f0.size f1.size)) ∧
    sample_diff 100 1000 = 90 ∧
    sample_diff 100 150 = 50 ∧
    get_torrent_type STRIP_CHARS [⟨"a.mkv", 100⟩, ⟨"b.mkv", 1000⟩] =
      .ok (.MOVIE_WITH_SAMPLE, none) ∧
    get_torrent_type STRIP_CHARS [⟨"a.mkv", 100⟩, ⟨"b.mkv", 150⟩] ≠
      .ok (.MOVIE_WITH_SAMPLE, none) := by
  refine ⟨?_, sample_diff_100_1000, sample_diff_100_150, tt_a100_b1000, ?_⟩
  · intro strip f0 f1 hpos
    have hz : f0.size ≠ 0 := by omega
    constructor
    · intro hr
      by_contra h90
      have hs : is_movie_with_sample [f0, f1] = .ok false := by
        rw [is_sample_of_pos f0 f1 hz]
        simp [h90]
      exact tt_not_sample_of_ok_false strip f0 f1 [] hs _ hr rfl
    · intro h90
      have hs : is_movie_with_sample [f0, f1] = .ok true := by
        rw [is_sample_of_pos f0 f1 hz]
        simp [h90]
      exact tt_sample_of_ok_true strip f0 f1 [] hs
  · rw [tt_a100_b150]
    decide

/-- C2 witness: the (100, 1000) pair instantiates the threshold equivalence
with its positivity hypothesis discharged. -/
theorem claim2_witness :
    0 < (FileInfo.mk "a.mkv" 100).size ∧
    (get_torrent_type STRIP_CHARS [⟨"a.mkv", 100⟩, ⟨"b.mkv", 1000⟩] =
        .ok (.MOVIE_WITH_SAMPLE, none) ↔
      90 ≤ sample_diff (FileInfo.mk "a.mkv" 100).size (FileInfo.mk "b.mkv" 1000).size) :=
  ⟨by decide, claim2_sample_threshold.1 STRIP_CHARS ⟨"a.mkv", 100⟩ ⟨"b.mkv", 1000⟩ (by decide)⟩

/-- C4 counterexample: the claim says that with equal sizes the SECOND file
is selected for relocation; the strict `<` comparison of `main` in fact
selects the FIRST file when sizes are equal. -/
theorem claim4_counterexample :
    sampleSelect ⟨"a.mkv", 700⟩ ⟨"b.mkv", 700⟩ = ⟨"a.mkv", 700⟩ ∧
    sampleSelect ⟨"a.mkv", 700⟩ ⟨"b.mkv", 700⟩ ≠ FileInfo.mk "b.mkv" 700 := by
  decide

/-- C4 amended: a two-file job with equal sizes is never classified
`MOVIE_WITH_SAMPLE` (its normalized size difference is 0, or the division
raises on size 0), and the selection comparison of the `MOVIE_WITH_SAMPLE`
branch, being strict less-than, picks the FIRST file on equal sizes. -/
theorem claim4_equal_sizes :
    (∀ (strip : List Char) (f0 f1 : FileInfo), f0.size = f1.size →
      ∀ r, get_torrent_type strip [f0, f1] = .ok r →
        r.1 ≠ TorrentType.MOVIE_WITH_SAMPLE) ∧
    (∀ v0 v1 : FileInfo, v0.size = v1.size → sampleSelect v0 v1 = v0) := by
  constructor
  · intro strip f0 f1 heq r hr
    by_cases hz : f0.size = 0
    · have : is_movie_with_sample [f0, f1] = .error () := by
        unfold is_movie_with_sample
        show (if f0.size = 0 then Except.error ()
              else Except.ok (decide (90 ≤ sample_diff f0.size f1.size))) = Except.error ()
        rw [if_pos hz]
      have herr : get_torrent_type strip [f0, f1] = .error () := by
        unfold get_torrent_type
        rw [this]
      rw [herr] at hr
      exact Except.noConfusion hr
    · exact tt_not_sample_of_ok_false strip f0 f1 []
        (is_sample_equal_sizes f0 f1 heq hz) r hr
  · intro v0 v1 heq
    unfold sampleSelect
    rw [if_neg (by omega)]

/-- C4 witness: the amended statement instantiated at two equal-size files. -/
theorem claim4_witness :
    (FileInfo.mk "a.mkv" 700).size = (FileInfo.mk "b.mkv" 700).size ∧
    (∀ r, get_torrent_type STRIP_CHARS [⟨"a.mkv", 700⟩, ⟨"b.mkv", 700⟩] = .ok r →
      r.1 ≠ TorrentType.MOVIE_WITH_SAMPLE) ∧
    sampleSelect ⟨"a.mkv", 700⟩ ⟨"b.mkv", 700⟩ = FileInfo.mk "a.mkv" 700 :=
  ⟨rfl, claim4_equal_sizes.1 STRIP_CHARS ⟨"a.mkv", 700⟩ ⟨"b.mkv", 700⟩ rfl,
    claim4_equal_sizes.2 ⟨"a.mkv", 700⟩ ⟨"b.mkv", 700⟩ rfl⟩

/-- C8: relocating a file whose basename already exists in the destination
directory reports success and leaves the filesystem state — in particular
the log of performed `copyfile` calls — untouched. -/
theorem claim8_relocate_idempotent :
    ∀ (cfg : Config) (cf : String → String → Bool) (st : FsState) (src tdir : String),
      st.existing.contains (joinPath tdir (String.mk (basenameChars src.data))) = true →
      move_torrent_file cfg cf st src tdir = (true, st) := by
  intro cfg cf st src tdir h
  unfold move_torrent_file
  rw [if_pos h]

/-- C8 witness: a destination already holding `a.mkv` makes the relocation a
successful no-op. -/
theorem claim8_witness :
    (FsState.mk ["films/a.mkv"] [] []).existing.contains
        (joinPath "films" (String.mk (basenameChars ("a.mkv").data))) = true ∧
    move_torrent_file defaultCfg cfBad ⟨["films/a.mkv"], [], []⟩ "a.mkv" "films" =
      (true, ⟨["films/a.mkv"], [], []⟩) :=
  ⟨by decide,
    claim8_relocate_idempotent defaultCfg cfBad ⟨["films/a.mkv"], [], []⟩ "a.mkv" "films"
      (by decide)⟩

/-- C10: the sample heuristic divides by the first file's size with no
guard: for a two-video-file job, a zero first size raises
`ZeroDivisionError` — also through the classifier — while any positive
first size yields a Boolean verdict. -/
theorem claim10_division_guard :
    (∀ (strip : List Char) (f0 f1 : FileInfo), f0.size = 0 →
      is_movie_with_sample [f0, f1] = .error () ∧
      get_torrent_type strip [f0, f1] = .error ()) ∧
    (∀ f0 f1 : FileInfo, 0 < f0.size →
      is_movie_with_sample [f0, f1] = .ok (decide (90 ≤ sample_diff f0.size f1.size))) := by
  constructor
  · intro strip f0 f1 hz
    have hs : is_movie_with_sample [f0, f1] = .error () := by
      unfold is_movie_with_sample
      show (if f0.size = 0 then Except.error ()
            else Except.ok (decide (90 ≤ sample_diff f0.size f1.size))) = Except.error ()
      rw [if_pos hz]
    refine ⟨hs, ?_⟩
    unfold get_torrent_type
    rw [hs]
  · intro f0 f1 hpos
    exact is_sample_of_pos f0 f1 (by omega)

/-- C10 witness: a first file of size 0 next to a file of size 700 raises;
first size 100 yields a verdict. -/
theorem claim10_witness :
    ((FileInfo.mk "a.mkv" 0).size = 0 ∧
      is_movie_with_sample [⟨"a.mkv", 0⟩, ⟨"b.mkv", 700⟩] = .error () ∧
      get_torrent_type STRIP_CHARS [⟨"a.mkv", 0⟩, ⟨"b.mkv", 700⟩] = .error ()) ∧
    (0 < (FileInfo.mk "a.mkv" 100).size ∧
      is_movie_with_sample [⟨"a.mkv", 100⟩, ⟨"b.mkv", 150⟩] =
        .ok (decide (90 ≤ sample_diff 100 150))) :=
  ⟨⟨rfl, (claim10_division_guard.1 STRIP_CHARS ⟨"a.mkv", 0⟩ ⟨"b.mkv", 700⟩ rfl).1,
      (claim10_division_guard.1 STRIP_CHARS ⟨"a.mkv", 0⟩ ⟨"b.mkv", 700⟩ rfl).2⟩,
    ⟨by decide, claim10_division_guard.2 ⟨"a.mkv", 100⟩ ⟨"b.mkv", 150⟩ (by decide)⟩⟩

/-!
## Properties of the pattern matcher: stripping (C5)
-/

lemma head?_dropWhile_false {α : Type} {p : α → Bool} :
    ∀ (l : List α) (c : α), (l.dropWhile p).head? = some c → p c = false := by
  intro l
  induction l with
  | nil => intro c h; simp [List.dropWhile] at h
  | cons a t ih =>
    intro c h
    by_cases hp : p a
    · rw [List.dropWhile_cons_of_pos hp] at h
      exact ih c h
    · rw [List.dropWhile_cons_of_neg hp] at h
      simp only [List.head?_cons, Option.some.injEq] at h
      rw [← h]
      exact Bool.not_eq_true _ ▸ (by simpa using hp)

lemma getLast?_dropWhile_mem {α : Type} {p : α → Bool} :
    ∀ (l : List α) (c : α), ((l.dropWhile p).getLast? = some c) → l.getLast? = some c := by
  intro l
  induction l with
  | nil => intro c h; simp [List.dropWhile] at h
  | cons a t ih =>
    intro c h
    by_cases hp : p a
    · rw [List.dropWhile_cons_of_pos hp] at h
      have ht := ih c h
      cases t with
      | nil => simp at ht
      | cons b t' => rw [List.getLast?_cons_cons]; exact ht
    · rw [List.dropWhile_cons_of_neg hp] at h
      exact h

/-- The string stripped by `str.strip(chars)` carries no stripped character
at its front. -/
lemma stripChars_head (cs l : List Char) (c : Char)
    (h : (stripChars cs l).head? = some c) : cs.contains c = false := by
  unfold stripChars at h
  rw [List.head?_reverse] at h
  have h2 := getLast?_dropWhile_mem _ c h
  rw [List.getLast?_reverse] at h2
  exact head?_dropWhile_false _ c h2

/-- The string stripped by `str.strip(chars)` carries no stripped character
at its back. -/
lemma stripChars_last (cs l : List Char) (c : Char)
    (h : (stripChars cs l).getLast? = some c) : cs.contains c = false := by
  unfold stripChars at h
  rw [List.getLast?_reverse] at h
  exact head?_dropWhile_false _ c h

/-- Inversion of a successful `get_episode_data`: some pattern matched via
`reSearch` and the episode dictionary is built from its captures. -/
lemma get_episode_data_inv (strip : List Char) (fn : String) (d : EpisodeData)
    (h : get_episode_data strip fn = some d) :
    ∃ pat caps, pat ∈ SERIES_PATTERNS ∧
      reSearch pat (basenameChars fn.data) = some caps ∧
      d = { series_name := String.mk (stripChars strip caps.g1),
            season_num := pad2 (digitsToNat caps.g2),
            episode_num := pad2 (digitsToNat caps.g3),
            filename := fn } := by
  unfold get_episode_data at h
  obtain ⟨pat, hmem, hp⟩ := List.exists_of_findSome?_eq_some h
  obtain ⟨caps, hc, hd⟩ := Option.map_eq_some'.mp hp
  exact ⟨pat, caps, hmem, hc, hd.symm⟩

/-- C5 amended: for every successful match, the returned `show_name` carries
no leading and no trailing character of the configured strip-set (it can,
however, be empty — see the counterexample). -/
theorem claim5_show_name_stripped :
    ∀ (strip : List Char) (fn : String) (d : EpisodeData),
      get_episode_data strip fn = some d →
      (∀ c, d.series_name.data.head? = some c → strip.contains c = false) ∧
      (∀ c, d.series_name.data.getLast? = some c → strip.contains c = false) := by
  intro strip fn d h
  obtain ⟨pat, caps, _, _, hd⟩ := get_episode_data_inv strip fn d h
  subst hd
  exact ⟨fun c hc => stripChars_head strip caps.g1 c hc,
         fun c hc => stripChars_last strip caps.g1 c hc⟩

/-- C5 counterexample: the claim says `show_name` is never empty after the
trim; on `"S03E07.mkv"` the first pattern matches with an empty group 1, so
the returned `show_name` is the empty string. -/
theorem claim5_counterexample :
    get_episode_data STRIP_CHARS "S03E07.mkv" =
      some ⟨"", "03", "07", "S03E07.mkv"⟩ ∧
    (EpisodeData.mk "" "03" "07" "S03E07.mkv").series_name = "" := by
  constructor
  · decide
  · rfl

/-- C5 witness: the amended statement instantiated on a successful match. -/
theorem claim5_witness :
    get_episode_data STRIP_CHARS "Show.S3E07.mkv" =
      some ⟨"Show", "03", "07", "Show.S3E07.mkv"⟩ ∧
    (∀ c, (EpisodeData.mk "Show" "03" "07" "Show.S3E07.mkv").series_name.data.head? = some c →
      STRIP_CHARS.contains c = false) ∧
    (∀ c, (EpisodeData.mk "Show" "03" "07" "Show.S3E07.mkv").series_name.data.getLast? = some c →
      STRIP_CHARS.contains c = false) :=
  ⟨by decide,
    (claim5_show_name_stripped STRIP_CHARS "Show.S3E07.mkv" ⟨"Show", "03", "07", "Show.S3E07.mkv"⟩
      (by decide)).1,
    (claim5_show_name_stripped STRIP_CHARS "Show.S3E07.mkv" ⟨"Show", "03", "07", "Show.S3E07.mkv"⟩
      (by decide)).2⟩

/-!
## Properties of the pattern matcher: the SxxEyy pattern (C3)
-/

lemma findSome?_isSome_of_mem {α β : Type} {f : α → Option β} :
    ∀ {l : List α} {a : α}, a ∈ l → (f a).isSome = true → (l.findSome? f).isSome = true := by
  intro l
  induction l with
  | nil => intro a ha _; cases ha
  | cons b t ih =>
    intro a ha hf
    cases hfb : f b with
    | some v =>
      rw [List.findSome?_cons_of_isSome t (by rw [hfb]; rfl), hfb]
      rfl
    | none =>
      rw [List.findSome?_cons_of_isNone t (by rw [hfb]; rfl)]
      rcases List.mem_cons.mp ha with rfl | hmem
      · rw [hfb] at hf; simp at hf
      · exact ih hmem hf

lemma mem_descRange {lo hi k : Nat} (h : k ∈ descRange lo hi) : lo ≤ k ∧ k ≤ hi := by
  unfold descRange at h
  obtain ⟨j, hj, rfl⟩ := List.mem_map.mp h
  rw [List.mem_range] at hj
  omega

/-- A trailing `(.*)` always matches. -/
lemma starGreedy_isSome (g : Nat) (s : List Char) (c : Caps) :
    (matchElems [.starGreedy g] s c).isSome = true := by
  simp only [matchElems]
  have h0 : (0 : Nat) ∈ (List.range (s.length + 1)).reverse := by
    rw [List.mem_reverse, List.mem_range]; omega
  apply findSome?_isSome_of_mem h0
  simp [noNL]

/-- A case-insensitive literal accepts a matching head character. -/
lemma lit_step_isSome (ch a : Char) (rest : List RElem) (s : List Char) (cap : Caps)
    (hch : a.toLower = ch.toLower)
    (hnext : (matchElems rest s cap).isSome = true) :
    (matchElems (.lit ch :: rest) (a :: s) cap).isSome = true := by
  simp only [matchElems]
  rw [if_pos hch]
  exact hnext

/-- A digit repetition accepts a digit block whose width is a candidate. -/
lemma digits_step_isSome (lo hi g : Nat) (rest : List RElem) (ds tail : List Char) (cap : Caps)
    (hmem : ds.length ∈ descRange lo hi) (hdig : ds.all Char.isDigit = true)
    (hnext : (matchElems rest tail (setCap g ds cap)).isSome = true) :
    (matchElems (.digits lo hi g :: rest) (ds ++ tail) cap).isSome = true := by
  simp only [matchElems]
  apply findSome?_isSome_of_mem hmem
  simp only [List.take_left, List.drop_left, beq_self_eq_true, Bool.true_and, hdig]
  simpa using hnext

/-- A lazy star may consume nothing. -/
lemma starLazy_zero_isSome (g : Nat) (rest : List RElem) (s : List Char) (cap : Caps)
    (hnext : (matchElems rest s (setCap g [] cap)).isSome = true) :
    (matchElems (.starLazy g :: rest) s cap).isSome = true := by
  simp only [matchElems]
  have h0 : (0 : Nat) ∈ List.range (s.length + 1) := by
    rw [List.mem_range]; omega
  apply findSome?_isSome_of_mem h0
  simpa [noNL] using hnext

/-- `re.search` succeeds as soon as the pattern matches at some position. -/
lemma reSearch_isSome_of_at (elems : List RElem) (pre tail : List Char)
    (h : (matchElems elems tail caps0).isSome = true) :
    (reSearch elems (pre ++ tail)).isSome = true := by
  unfold reSearch
  have hp : pre.length ∈ List.range ((pre ++ tail).length + 1) := by
    rw [List.mem_range, List.length_append]; omega
  apply findSome?_isSome_of_mem hp
  simpa [List.drop_left] using h

/-- Completeness of the first series pattern: any basename containing an
`S<season>E<episode>` block — season one or two digits, episode exactly two
digits — is found by `reSearch`. -/
lemma pattern1_search_isSome (pre sd ed post : List Char) (c e : Char)
    (hc : c = 'S' ∨ c = 's') (he : e = 'E' ∨ e = 'e')
    (hsd1 : 1 ≤ sd.length) (hsd2 : sd.length ≤ 2) (hsdd : sd.all Char.isDigit = true)
    (hed : ed.length = 2) (hedd : ed.all Char.isDigit = true) :
    (reSearch seriesPattern1 (pre ++ c :: (sd ++ e :: (ed ++ post)))).isSome = true := by
  apply reSearch_isSome_of_at
  unfold seriesPattern1
  apply starLazy_zero_isSome
  apply lit_step_isSome 'S' c _ _ _ (by rcases hc with rfl | rfl <;> decide)
  apply digits_step_isSome 1 2 2 _ sd _ _ ?_ hsdd
  · apply lit_step_isSome 'E' e _ _ _ (by rcases he with rfl | rfl <;> decide)
    apply digits_step_isSome 2 2 3 _ ed _ _ ?_ hedd
    · exact starGreedy_isSome 4 post _
    · rw [hed]; decide
  · have : sd.length = 1 ∨ sd.length = 2 := by omega
    rcases this with h | h <;> rw [h] <;> decide

lemma matchElems_lit_inv (ch : Char) (rest : List RElem) (s : List Char) (c caps : Caps)
    (h : matchElems (.lit ch :: rest) s c = some caps) :
    ∃ a s', s = a :: s' ∧ matchElems rest s' c = some caps := by
  cases s with
  | nil => simp [matchElems] at h
  | cons a s' =>
    simp only [matchElems] at h
    split at h
    · exact ⟨a, s', rfl, h⟩
    · cases h

lemma matchElems_digits_inv (lo hi g : Nat) (rest : List RElem) (s : List Char) (c caps : Caps)
    (h : matchElems (.digits lo hi g :: rest) s c = some caps) :
    ∃ ds s', s = ds ++ s' ∧ lo ≤ ds.length ∧ ds.length ≤ hi ∧
      ds.all Char.isDigit = true ∧ matchElems rest s' (setCap g ds c) = some caps := by
  simp only [matchElems] at h
  obtain ⟨k, hkmem, hfk⟩ := List.exists_of_findSome?_eq_some h
  obtain ⟨hlo, hhi⟩ := mem_descRange hkmem
  split at hfk
  · rename_i hcond
    rw [Bool.and_eq_true, beq_iff_eq] at hcond
    exact ⟨s.take k, s.drop k, (List.take_append_drop k s).symm,
      by rw [hcond.1]; exact hlo, by rw [hcond.1]; exact hhi, hcond.2, hfk⟩
  · cases hfk

lemma matchElems_starLazy_inv (g : Nat) (rest : List RElem) (s : List Char) (c caps : Caps)
    (h : matchElems (.starLazy g :: rest) s c = some caps) :
    ∃ i, matchElems rest (s.drop i) (setCap g (s.take i) c) = some caps := by
  simp only [matchElems] at h
  obtain ⟨i, _, hfi⟩ := List.exists_of_findSome?_eq_some h
  split at hfi
  · exact ⟨i, hfi⟩
  · cases hfi

lemma matchElems_starGreedy_last (g : Nat) (s : List Char) (c caps : Caps)
    (h : matchElems [.starGreedy g] s c = some caps) :
    ∃ v, caps = setCap g v c := by
  simp only [matchElems] at h
  obtain ⟨i, _, hfi⟩ := List.exists_of_findSome?_eq_some h
  split at hfi
  · exact ⟨s.take i, (Option.some.inj hfi).symm⟩
  · cases hfi

/-- Soundness of the first series pattern: any successful match captures a
one-or-two-digit season block in group 2 and an exactly-two-digit episode
block in group 3. -/
lemma pattern1_caps_shape (s : List Char) (caps : Caps)
    (h : matchElems seriesPattern1 s caps0 = some caps) :
    (1 ≤ caps.g2.length ∧ caps.g2.length ≤ 2 ∧ caps.g2.all Char.isDigit = true) ∧
    (caps.g3.length = 2 ∧ caps.g3.all Char.isDigit = true) := by
  unfold seriesPattern1 at h
  obtain ⟨i, h⟩ := matchElems_starLazy_inv _ _ _ _ _ h
  obtain ⟨a, s1, _, h⟩ := matchElems_lit_inv _ _ _ _ _ h
  obtain ⟨ds, s2, _, hd1, hd2, hdd, h⟩ := matchElems_digits_inv _ _ _ _ _ _ _ h
  obtain ⟨b, s3, _, h⟩ := matchElems_lit_inv _ _ _ _ _ h
  obtain ⟨ds', s4, _, hd1', hd2', hdd', h⟩ := matchElems_digits_inv _ _ _ _ _ _ _ h
  obtain ⟨v, hv⟩ := matchElems_starGreedy_last _ _ _ _ h
  have hg2 : caps.g2 = ds := by rw [hv]; rfl
  have hg3 : caps.g3 = ds' := by rw [hv]; rfl
  rw [hg2, hg3]
  exact ⟨⟨hd1, hd2, hdd⟩, ⟨by omega, hdd'⟩⟩

/-- A digit character's code point is at most 57. -/
lemma char_toNat_le_of_isDigit (c : Char) (h : c.isDigit = true) : c.toNat ≤ 57 := by
  unfold Char.isDigit at h
  rw [Bool.and_eq_true, decide_eq_true_iff, decide_eq_true_iff] at h
  exact UInt32.toNat_le_of_le (by norm_num) h.2

/-- The integer value of an at-most-two-character digit string is below
100. -/
lemma digitsToNat_lt_100 (l : List Char) (h1 : l.length ≤ 2)
    (h2 : l.all Char.isDigit = true) : digitsToNat l < 100 := by
  rcases l with _ | ⟨a, _ | ⟨b, _ | ⟨c', t⟩⟩⟩
  · decide
  · rw [List.all_cons, Bool.and_eq_true] at h2
    have ha := char_toNat_le_of_isDigit a h2.1
    unfold digitsToNat
    simp only [List.foldl_cons, List.foldl_nil]
    omega
  · rw [List.all_cons, Bool.and_eq_true, List.all_cons, Bool.and_eq_true] at h2
    have ha := char_toNat_le_of_isDigit a h2.1
    have hb := char_toNat_le_of_isDigit b h2.2.1
    unfold digitsToNat
    simp only [List.foldl_cons, List.foldl_nil]
    omega
  · simp at h1

/-- `f"{n:02d}"` of a number below 100 has exactly two characters. -/
lemma pad2_length : ∀ n : Nat, n < 100 → (pad2 n).length = 2 := by decide

/-- When the first series pattern finds a match, `get_episode_data` returns
the dictionary built from that match's captures (the later patterns are not
consulted). -/
lemma get_episode_data_of_pattern1 (strip : List Char) (fn : String) (caps : Caps)
    (h : reSearch seriesPattern1 (basenameChars fn.data) = some caps) :
    get_episode_data strip fn = some
      { series_name := String.mk (stripChars strip caps.g1),
        season_num := pad2 (digitsToNat caps.g2),
        episode_num := pad2 (digitsToNat caps.g3),
        filename := fn } := by
  unfold get_episode_data SERIES_PATTERNS
  rw [List.findSome?_cons]
  simp only [h, Option.map_some']

/-- C3 amended: the claim promises a successful match whenever season AND
episode have one or two digits; the first pattern in fact requires exactly
two episode digits (`E(\d{2})`).  Amended statement: for every filename
whose basename contains an `S<season>E<episode>` block with a one-or-two
digit season and an exactly-two-digit episode, the matcher succeeds, and the
returned season and episode are two-digit zero-padded renderings of numbers
below 100; `"Show.S3E07.mkv"` yields season `"03"` and episode `"07"`. -/
theorem claim3_sxxeyy_pattern :
    (∀ (strip : List Char) (fn : String) (pre sd ed post : List Char) (c e : Char),
      basenameChars fn.data = pre ++ c :: (sd ++ e :: (ed ++ post)) →
      (c = 'S' ∨ c = 's') → (e = 'E' ∨ e = 'e') →
      1 ≤ sd.length → sd.length ≤ 2 → sd.all Char.isDigit = true →
      ed.length = 2 → ed.all Char.isDigit = true →
      ∃ d, get_episode_data strip fn = some d ∧
        (∃ n, n < 100 ∧ d.season_num = pad2 n) ∧
        (∃ m, m < 100 ∧ d.episode_num = pad2 m) ∧
        d.season_num.length = 2 ∧ d.episode_num.length = 2) ∧
    get_episode_data STRIP_CHARS "Show.S3E07.mkv" =
      some ⟨"Show", "03", "07", "Show.S3E07.mkv"⟩ := by
  constructor
  · intro strip fn pre sd ed post c e hbn hc he hsd1 hsd2 hsdd hed hedd
    have hsearch : (reSearch seriesPattern1 (basenameChars fn.data)).isSome = true := by
      rw [hbn]
      exact pattern1_search_isSome pre sd ed post c e hc he hsd1 hsd2 hsdd hed hedd
    obtain ⟨caps, hcaps⟩ := Option.isSome_iff_exists.mp hsearch
    have hshape : (1 ≤ caps.g2.length ∧ caps.g2.length ≤ 2 ∧ caps.g2.all Char.isDigit = true) ∧
        (caps.g3.length = 2 ∧ caps.g3.all Char.isDigit = true) := by
      unfold reSearch at hcaps
      obtain ⟨p, _, hp⟩ := List.exists_of_findSome?_eq_some hcaps
      exact pattern1_caps_shape _ _ hp
    have hn : digitsToNat caps.g2 < 100 :=
      digitsToNat_lt_100 caps.g2 hshape.1.2.1 hshape.1.2.2
    have hm : digitsToNat caps.g3 < 100 :=
      digitsToNat_lt_100 caps.g3 (by rw [hshape.2.1]) hshape.2.2
    refine ⟨_, get_episode_data_of_pattern1 strip fn caps hcaps,
      ⟨digitsToNat caps.g2, hn, rfl⟩, ⟨digitsToNat caps.g3, hm, rfl⟩,
      pad2_length _ hn, pad2_length _ hm⟩
  · decide

/-- C3 counterexample: the claim as stated promises a match for a one-digit
episode number; `"Show.S3E7.mkv"` (season `3`, episode `7`) matches no
pattern, so the matcher reports no-match. -/
theorem claim3_counterexample :
    get_episode_data STRIP_CHARS "Show.S3E7.mkv" = none := by decide

/-- C3 witness: the amended statement instantiated on
`"Show.S3E07.mkv" = "Show." ++ 'S' :: ("3" ++ 'E' :: ("07" ++ ".mkv"))`. -/
theorem claim3_witness :
    basenameChars ("Show.S3E07.mkv").data =
      ("Show.").data ++ 'S' :: (("3").data ++ 'E' :: (("07").data ++ (".mkv").data)) ∧
    (∃ d, get_episode_data STRIP_CHARS "Show.S3E07.mkv" = some d ∧
      (∃ n, n < 100 ∧ d.season_num = pad2 n) ∧
      (∃ m, m < 100 ∧ d.episode_num = pad2 m) ∧
      d.season_num.length = 2 ∧ d.episode_num.length = 2) :=
  ⟨by decide,
    claim3_sxxeyy_pattern.1 STRIP_CHARS "Show.S3E07.mkv"
      ("Show.").data ("3").data ("07").data (".mkv").data 'S' 'E'
      (by decide) (Or.inl rfl) (Or.inl rfl)
      (by decide) (by decide) (by decide) (by decide) (by decide)⟩


/-!
## Properties of the orchestrator loops (C6, C7)
-/

/-- The episode loop leaves `moved`/`log` untouched when it performs no
relocation, and otherwise its final `moved` is the last logged result. -/
lemma relocateEpisodes_moved_log (cfg : Config) (cf : String → String → Bool) :
    ∀ (eps : List EpisodeData) (st : FsState) (moved : Bool) (log : List Bool)
      (brk m : Bool) (log' : List Bool) (st' : FsState),
      relocateEpisodes cfg cf st eps moved log = (brk, m, log', st') →
      (log' = log ∧ m = moved) ∨ log'.getLast? = some m := by
  intro eps
  induction eps with
  | nil =>
    intro st moved log brk m log' st' h
    unfold relocateEpisodes at h
    simp only [Prod.mk.injEq] at h
    obtain ⟨rfl, rfl, rfl, rfl⟩ := h
    exact Or.inl ⟨rfl, rfl⟩
  | cons ep rest ih =>
    intro st moved log brk m log' st' h
    unfold relocateEpisodes at h
    split at h
    · rcases ih _ _ _ _ _ _ _ h with ⟨hl, hm⟩ | hlast
      · right
        rw [hl, hm]
        exact List.getLast?_concat _
      · exact Or.inr hlast
    · simp only [Prod.mk.injEq] at h
      obtain ⟨rfl, rfl, rfl, rfl⟩ := h
      right
      exact List.getLast?_concat _

/-- The season loop leaves `moved`/`log` untouched when it performs no
relocation, and otherwise its final `moved` is the last logged result. -/
lemma relocateSeasons_moved_log (cfg : Config) (cf : String → String → Bool) :
    ∀ (ss : List (String × List EpisodeData)) (st : FsState) (moved : Bool)
      (log : List Bool) (m : Bool) (log' : List Bool) (st' : FsState),
      relocateSeasons cfg cf st ss moved log = (m, log', st') →
      (log' = log ∧ m = moved) ∨ log'.getLast? = some m := by
  intro ss
  induction ss with
  | nil =>
    intro st moved log m log' st' h
    unfold relocateSeasons at h
    simp only [Prod.mk.injEq] at h
    obtain ⟨rfl, rfl, rfl⟩ := h
    exact Or.inl ⟨rfl, rfl⟩
  | cons season rest ih =>
    intro st moved log m log' st' h
    unfold relocateSeasons at h
    split at h
    · rename_i m1 log1 st1 heq
      simp only [Prod.mk.injEq] at h
      obtain ⟨rfl, rfl, rfl⟩ := h
      rcases relocateEpisodes_moved_log cfg cf season.2 st moved log _ _ _ _ heq with
        ⟨hl, hm⟩ | hlast
      · exact Or.inl ⟨hl, hm⟩
      · exact Or.inr hlast
    · rename_i m1 log1 st1 heq
      rcases ih _ _ _ _ _ _ h with ⟨hl, hm⟩ | hlast
      · rcases relocateEpisodes_moved_log cfg cf season.2 st moved log _ _ _ _ heq with
          ⟨hl1, hm1⟩ | hlast1
        · exact Or.inl ⟨hl.trans hl1, hm.trans hm1⟩
        · right
          rw [hl, hm]
          exact hlast1
      · exact Or.inr hlast

/-- Starting from an all-`true` log, the episode loop appends `true` results
and stops right after the first `false` (if any), reporting the break. -/
lemma relocateEpisodes_shape (cfg : Config) (cf : String → String → Bool) :
    ∀ (eps : List EpisodeData) (st : FsState) (moved : Bool) (n : Nat)
      (brk m : Bool) (log' : List Bool) (st' : FsState),
      relocateEpisodes cfg cf st eps moved (List.replicate n true) = (brk, m, log', st') →
      (brk = false ∧ ∃ j, log' = List.replicate j true) ∨
      (brk = true ∧ ∃ j, log' = List.replicate j true ++ [false]) := by
  intro eps
  induction eps with
  | nil =>
    intro st moved n brk m log' st' h
    unfold relocateEpisodes at h
    simp only [Prod.mk.injEq] at h
    obtain ⟨rfl, rfl, rfl, rfl⟩ := h
    exact Or.inl ⟨rfl, n, rfl⟩
  | cons ep rest ih =>
    intro st moved n brk m log' st' h
    unfold relocateEpisodes at h
    split at h
    · rename_i hmv
      rw [hmv, ← List.replicate_succ'] at h
      exact ih _ _ _ _ _ _ _ h
    · rename_i hmv
      rw [Bool.not_eq_true] at hmv
      simp only [Prod.mk.injEq] at h
      obtain ⟨rfl, rfl, rfl, rfl⟩ := h
      right
      rw [hmv]
      exact ⟨rfl, n, rfl⟩

/-- Starting from an all-`true` log, the season loop produces a log that is
all `true`, or all `true` followed by a single final `false`. -/
lemma relocateSeasons_shape (cfg : Config) (cf : String → String → Bool) :
    ∀ (ss : List (String × List EpisodeData)) (st : FsState) (moved : Bool) (n : Nat)
      (m : Bool) (log' : List Bool) (st' : FsState),
      relocateSeasons cfg cf st ss moved (List.replicate n true) = (m, log', st') →
      (∃ j, log' = List.replicate j true) ∨
      (∃ j, log' = List.replicate j true ++ [false]) := by
  intro ss
  induction ss with
  | nil =>
    intro st moved n m log' st' h
    unfold relocateSeasons at h
    simp only [Prod.mk.injEq] at h
    obtain ⟨rfl, rfl, rfl⟩ := h
    exact Or.inl ⟨n, rfl⟩
  | cons season rest ih =>
    intro st moved n m log' st' h
    unfold relocateSeasons at h
    split at h
    · rename_i m1 log1 st1 heq
      simp only [Prod.mk.injEq] at h
      obtain ⟨rfl, rfl, rfl⟩ := h
      rcases relocateEpisodes_shape cfg cf season.2 st moved n _ _ _ _ heq with
        ⟨hbrk, hsh⟩ | ⟨_, hsh⟩
      · cases hbrk
      · exact Or.inr hsh
    · rename_i m1 log1 st1 heq
      rcases relocateEpisodes_shape cfg cf season.2 st moved n _ _ _ _ heq with
        ⟨_, j, hsh⟩ | ⟨hbrk, _⟩
      · rw [hsh] at h
        exact ih _ _ _ _ _ _ h
      · cases hbrk


/-- If the relocation dispatch ends with `moved = true`, the type was not
`UNKNOWN` and the last logged relocation attempt succeeded. -/
lemma processClassified_true_inv (cfg : Config) (cf : String → String → Bool)
    (st : FsState) (tt : TorrentType) (td : Option TypeData) (vf : List FileInfo)
    (log : List Bool) (st' : FsState)
    (h : processClassified cfg cf st tt td vf = .ok (true, log, st')) :
    tt ≠ TorrentType.UNKNOWN ∧ log ≠ [] ∧ log.getLast? = some true := by
  cases tt
  case UNKNOWN =>
    simp only [processClassified, Except.ok.injEq, Prod.mk.injEq] at h
    exact Bool.noConfusion h.1
  case MOVIE =>
    rcases vf with _ | ⟨v0, vrest⟩
    · simp only [processClassified] at h
      exact Except.noConfusion h
    · simp only [processClassified, singleMove, Except.ok.injEq, Prod.mk.injEq] at h
      obtain ⟨hm, hlog, _⟩ := h
      exact ⟨by decide, by rw [← hlog]; simp, by rw [← hlog, hm]; rfl⟩
  case MOVIE_WITH_SAMPLE =>
    rcases vf with _ | ⟨v0, _ | ⟨v1, vrest⟩⟩
    · simp only [processClassified] at h
      exact Except.noConfusion h
    · simp only [processClassified] at h
      exact Except.noConfusion h
    · simp only [processClassified, singleMove, Except.ok.injEq, Prod.mk.injEq] at h
      obtain ⟨hm, hlog, _⟩ := h
      exact ⟨by decide, by rw [← hlog]; simp, by rw [← hlog, hm]; rfl⟩
  case EPISODE =>
    rcases td with _ | ⟨e⟩ | ⟨sd⟩
    · simp only [processClassified] at h
      exact Except.noConfusion h
    · simp only [processClassified, Except.ok.injEq, Prod.mk.injEq] at h
      obtain ⟨hm, hlog, _⟩ := h
      exact ⟨by decide, by rw [← hlog]; simp, by rw [← hlog, hm]; rfl⟩
    · simp only [processClassified] at h
      exact Except.noConfusion h
  case SEASON =>
    rcases td with _ | ⟨e⟩ | ⟨sd⟩
    · simp only [processClassified] at h
      exact Except.noConfusion h
    · simp only [processClassified] at h
      exact Except.noConfusion h
    · simp only [processClassified, Except.ok.injEq] at h
      rcases relocateSeasons_moved_log cfg cf sd.seasons st false [] _ _ _ h with
        ⟨_, hm⟩ | hlast
      · exact Bool.noConfusion hm
      · refine ⟨by decide, ?_, hlast⟩
        intro hnil
        rw [hnil] at hlast
        simp at hlast
  case SERIES =>
    rcases td with _ | ⟨e⟩ | ⟨sd⟩
    · simp only [processClassified] at h
      exact Except.noConfusion h
    · simp only [processClassified] at h
      exact Except.noConfusion h
    · simp only [processClassified, Except.ok.injEq] at h
      rcases relocateSeasons_moved_log cfg cf sd.seasons st false [] _ _ _ h with
        ⟨_, hm⟩ | hlast
      · exact Bool.noConfusion hm
      · refine ⟨by decide, ?_, hlast⟩
        intro hnil
        rw [hnil] at hlast
        simp at hlast

/-- If a torrent's loop body ends with `moved = true`, its status was in the
completion set, it had video files, its classification succeeded with a
shape other than `UNKNOWN`, and the last relocation attempt succeeded. -/
lemma processOne_true_inv (cfg : Config) (cf : String → String → Bool)
    (st : FsState) (t : Torrent) (log : List Bool) (st' : FsState)
    (h : processOne cfg cf st t = .ok (true, log, st')) :
    TORRENT_COMPLETE_STATUS.contains t.status = true ∧
    get_video_files t.files ≠ [] ∧
    (∃ tt td, get_torrent_type cfg.strip_chars (get_video_files t.files) = .ok (tt, td) ∧
      tt ≠ TorrentType.UNKNOWN) ∧
    log ≠ [] ∧ log.getLast? = some true := by
  unfold processOne at h
  split at h
  case isFalse =>
    simp only [Except.ok.injEq, Prod.mk.injEq] at h
    exact Bool.noConfusion h.1
  case isTrue hstatus =>
  split at h
  case isFalse =>
    simp only [Except.ok.injEq, Prod.mk.injEq] at h
    exact Bool.noConfusion h.1
  case isTrue hlen =>
  have hne : get_video_files t.files ≠ [] := by
    intro hnil
    rw [hnil] at hlen
    simp at hlen
  split at h
  case h_1 => exact Except.noConfusion h
  case h_2 tt td heq =>
    obtain ⟨htt, hlog, hlast⟩ := processClassified_true_inv cfg cf st tt td _ log st' h
    exact ⟨hstatus, hne, ⟨tt, td, heq, htt⟩, hlog, hlast⟩

/-- Whatever the dispatch does, the per-torrent result log is a block of
successes, possibly closed by one final failure. -/
lemma processClassified_log_shape (cfg : Config) (cf : String → String → Bool)
    (st : FsState) (tt : TorrentType) (td : Option TypeData) (vf : List FileInfo)
    (m : Bool) (log : List Bool) (st' : FsState)
    (h : processClassified cfg cf st tt td vf = .ok (m, log, st')) :
    (∃ j, log = List.replicate j true) ∨ (∃ j, log = List.replicate j true ++ [false]) := by
  cases tt
  case UNKNOWN =>
    simp only [processClassified, Except.ok.injEq, Prod.mk.injEq] at h
    exact Or.inl ⟨0, h.2.1.symm⟩
  case MOVIE =>
    rcases vf with _ | ⟨v0, vrest⟩
    · simp only [processClassified] at h
      exact Except.noConfusion h
    · simp only [processClassified, singleMove, Except.ok.injEq, Prod.mk.injEq] at h
      obtain ⟨_, hlog, _⟩ := h
      cases hx : (move_torrent_file cfg cf st v0.name cfg.dir_film).1
      · rw [hx] at hlog
        exact Or.inr ⟨0, hlog.symm⟩
      · rw [hx] at hlog
        exact Or.inl ⟨1, hlog.symm⟩
  case MOVIE_WITH_SAMPLE =>
    rcases vf with _ | ⟨v0, _ | ⟨v1, vrest⟩⟩
    · simp only [processClassified] at h
      exact Except.noConfusion h
    · simp only [processClassified] at h
      exact Except.noConfusion h
    · simp only [processClassified, singleMove, Except.ok.injEq, Prod.mk.injEq] at h
      obtain ⟨_, hlog, _⟩ := h
      cases hx : (move_torrent_file cfg cf st (sampleSelect v0 v1).name cfg.dir_film).1
      · rw [hx] at hlog
        exact Or.inr ⟨0, hlog.symm⟩
      · rw [hx] at hlog
        exact Or.inl ⟨1, hlog.symm⟩
  case EPISODE =>
    rcases td with _ | ⟨e⟩ | ⟨sd⟩
    · simp only [processClassified] at h
      exact Except.noConfusion h
    · simp only [processClassified, Except.ok.injEq, Prod.mk.injEq] at h
      obtain ⟨_, hlog, _⟩ := h
      cases hx : (relocateOneEpisode cfg cf st e).1
      · rw [hx] at hlog
        exact Or.inr ⟨0, hlog.symm⟩
      · rw [hx] at hlog
        exact Or.inl ⟨1, hlog.symm⟩
    · simp only [processClassified] at h
      exact Except.noConfusion h
  case SEASON =>
    rcases td with _ | ⟨e⟩ | ⟨sd⟩
    · simp only [processClassified] at h
      exact Except.noConfusion h
    · simp only [processClassified] at h
      exact Except.noConfusion h
    · simp only [processClassified, Except.ok.injEq] at h
      exact relocateSeasons_shape cfg cf sd.seasons st false 0 _ _ _ h
  case SERIES =>
    rcases td with _ | ⟨e⟩ | ⟨sd⟩
    · simp only [processClassified] at h
      exact Except.noConfusion h
    · simp only [processClassified] at h
      exact Except.noConfusion h
    · simp only [processClassified, Except.ok.injEq] at h
      exact relocateSeasons_shape cfg cf sd.seasons st false 0 _ _ _ h

/-- The per-torrent log of any completed loop body: successes, possibly
closed by a single final failure. -/
lemma processOne_log_shape (cfg : Config) (cf : String → String → Bool)
    (st : FsState) (t : Torrent) (m : Bool) (log : List Bool) (st' : FsState)
    (h : processOne cfg cf st t = .ok (m, log, st')) :
    (∃ j, log = List.replicate j true) ∨ (∃ j, log = List.replicate j true ++ [false]) := by
  unfold processOne at h
  split at h
  case isFalse =>
    simp only [Except.ok.injEq, Prod.mk.injEq] at h
    exact Or.inl ⟨0, h.2.1.symm⟩
  case isTrue =>
  split at h
  case isFalse =>
    simp only [Except.ok.injEq, Prod.mk.injEq] at h
    exact Or.inl ⟨0, h.2.1.symm⟩
  case isTrue =>
  split at h
  case h_1 => exact Except.noConfusion h
  case h_2 tt td heq => exact processClassified_log_shape cfg cf st tt td _ m log st' h

lemma rep_false_decomp :
    ∀ (l1 : List Bool) (j : Nat) (l2 : List Bool),
      List.replicate j true ++ [false] = l1 ++ false :: l2 → l2 = [] := by
  intro l1
  induction l1 with
  | nil =>
    intro j l2 heq
    cases j with
    | zero =>
      simp only [List.replicate, List.nil_append, List.cons.injEq] at heq
      exact heq.2.symm
    | succ j' =>
      rw [List.replicate_succ, List.cons_append] at heq
      simp only [List.nil_append, List.cons.injEq] at heq
      exact Bool.noConfusion heq.1
  | cons a l1' ih =>
    intro j l2 heq
    cases j with
    | zero =>
      have h2 : ([false] : List Bool) = a :: (l1' ++ false :: l2) := heq
      injection h2 with h3 h4
      exact absurd h4.symm (by simp)
    | succ j' =>
      rw [List.replicate_succ, List.cons_append] at heq
      simp only [List.cons_append, List.cons.injEq] at heq
      exact ih j' l2 heq.2

/-- In a log that is all `true` up to possibly one final `false`, a `false`
entry can only sit at the very end. -/
lemma false_only_last (log : List Bool)
    (hsh : (∃ j, log = List.replicate j true) ∨ (∃ j, log = List.replicate j true ++ [false])) :
    ∀ l1 l2, log = l1 ++ false :: l2 → l2 = [] := by
  rcases hsh with ⟨j, rfl⟩ | ⟨j, rfl⟩
  · intro l1 l2 heq
    exfalso
    have hmem : false ∈ List.replicate j true := by
      rw [heq]
      exact List.mem_append_right _ (List.mem_cons_self _ _)
    exact Bool.noConfusion (List.eq_of_mem_replicate hmem)
  · intro l1 l2 heq
    exact rep_false_decomp l1 j l2 heq

/-- C6: a torrent id enters `ids_to_remove` only when that torrent's loop
body ended with `moved = true` (its last relocation attempt succeeded) and
`torrent.is_finished` holds; such a torrent necessarily had a completed
status, a non-empty video file list, and a classification other than
`UNKNOWN` — so skipped, `Unknown` or zero-video-file jobs are never
removed. -/
theorem claim6_removal_set :
    ∀ (cfg : Config) (cf : String → String → Bool) (ts : List Torrent)
      (st : FsState) (ids : List Nat) (logs : List (List Bool))
      (st' : FsState) (ids' : List Nat) (logs' : List (List Bool)),
      processTorrents cfg cf st ts ids logs = .ok (st', ids', logs') →
      ∀ tid, tid ∈ ids' → tid ∈ ids ∨
        ∃ t, t ∈ ts ∧ t.id = tid ∧ t.is_finished = true ∧
          ∃ stA log stB, processOne cfg cf stA t = .ok (true, log, stB) ∧
            log ≠ [] ∧ log.getLast? = some true ∧
            TORRENT_COMPLETE_STATUS.contains t.status = true ∧
            get_video_files t.files ≠ [] ∧
            ∃ tt td, get_torrent_type cfg.strip_chars (get_video_files t.files) =
              .ok (tt, td) ∧ tt ≠ TorrentType.UNKNOWN := by
  intro cfg cf ts
  induction ts with
  | nil =>
    intro st ids logs st' ids' logs' h tid htid
    unfold processTorrents at h
    simp only [Except.ok.injEq, Prod.mk.injEq] at h
    rw [← h.2.1] at htid
    exact Or.inl htid
  | cons t rest ih =>
    intro st ids logs st' ids' logs' h tid htid
    unfold processTorrents at h
    split at h
    case h_1 => exact Except.noConfusion h
    case h_2 moved log st1 heq =>
      rcases ih _ _ _ _ _ _ h tid htid with hin | ⟨t', ht', hrest⟩
      · by_cases hc : (moved && t.is_finished) = true
        · rw [if_pos hc] at hin
          rcases List.mem_append.mp hin with h1 | h2
          · exact Or.inl h1
          · right
            rw [Bool.and_eq_true] at hc
            have hm : moved = true := hc.1
            subst hm
            obtain ⟨hstatus, hne, htt, hlog, hlast⟩ :=
              processOne_true_inv cfg cf st t log st1 heq
            exact ⟨t, List.mem_cons_self t rest, (List.mem_singleton.mp h2).symm, hc.2,
              st, log, st1, heq, hlog, hlast, hstatus, hne, htt⟩
        · rw [if_neg hc] at hin
          exact Or.inl hin
      · exact Or.inr ⟨t', List.mem_cons_of_mem t ht', hrest⟩

/-- C7: once an episode of a `SEASON`- or `SERIES`-classified torrent fails
to relocate, no later relocation of that torrent takes place: in the
torrent's result log a `false` can only be the final entry. -/
theorem claim7_season_abort :
    ∀ (cfg : Config) (cf : String → String → Bool) (st : FsState) (t : Torrent)
      (tt : TorrentType) (td : Option TypeData) (m : Bool) (log : List Bool)
      (st' : FsState),
      get_torrent_type cfg.strip_chars (get_video_files t.files) = .ok (tt, td) →
      (tt = TorrentType.SEASON ∨ tt = TorrentType.SERIES) →
      processOne cfg cf st t = .ok (m, log, st') →
      ∀ l1 l2, log = l1 ++ false :: l2 → l2 = [] := by
  intro cfg cf st t tt td m log st' _ _ h
  exact false_only_last log (processOne_log_shape cfg cf st t m log st' h)

/-- A single-movie torrent used as a concrete witness. -/
def torMovie : Torrent := ⟨7, "movie-torrent", "seeding", [⟨"Movie.mkv", 700⟩], true⟩

/-- A one-season two-episode torrent used as a concrete witness. -/
def torSeason : Torrent :=
  ⟨3, "show-torrent", "seeding",
    [⟨"Show.S01E01.mkv", 100⟩, ⟨"Show.S01E02.mkv", 100⟩], true⟩

/-- The grouping computed by `get_series_data` for `torSeason`. -/
def sdShow : SeriesData :=
  ⟨"Show", [("01", [⟨"Show", "01", "01", "Show.S01E01.mkv"⟩,
                    ⟨"Show", "01", "02", "Show.S01E02.mkv"⟩])], 1⟩

lemma tt_torSeason :
    get_torrent_type defaultCfg.strip_chars (get_video_files torSeason.files) =
      .ok (.SEASON, some (.series sdShow)) := by
  have hs : is_movie_with_sample
      [⟨"Show.S01E01.mkv", 100⟩, ⟨"Show.S01E02.mkv", 100⟩] = .ok false :=
    is_sample_equal_sizes _ _ rfl (by decide)
  have hsd : get_series_data STRIP_CHARS
      [⟨"Show.S01E01.mkv", 100⟩, ⟨"Show.S01E02.mkv", 100⟩] = .ok (some sdShow) := by decide
  show get_torrent_type STRIP_CHARS
      [⟨"Show.S01E01.mkv", 100⟩, ⟨"Show.S01E02.mkv", 100⟩] = .ok (.SEASON, some (.series sdShow))
  rw [tt_series_some STRIP_CHARS _ _ [] sdShow hs hsd]
  decide

lemma processOne_torSeason :
    processOne defaultCfg cfBad fs0 torSeason =
      .ok (false, [false], ⟨["series/Show/s01"], ["series/Show/s01"], []⟩) := by
  unfold processOne
  rw [tt_torSeason]
  decide

/-- C6 witness: a finished, seeding, successfully relocated movie torrent
whose id 7 lands in the removal set, instantiating the theorem. -/
theorem claim6_witness :
    (7 ∈ ([] : List Nat)) ∨
    ∃ t, t ∈ [torMovie] ∧ t.id = 7 ∧ t.is_finished = true ∧
      ∃ stA log stB, processOne defaultCfg cfOk stA t = .ok (true, log, stB) ∧
        log ≠ [] ∧ log.getLast? = some true ∧
        TORRENT_COMPLETE_STATUS.contains t.status = true ∧
        get_video_files t.files ≠ [] ∧
        ∃ tt td, get_torrent_type defaultCfg.strip_chars (get_video_files t.files) =
          .ok (tt, td) ∧ tt ≠ TorrentType.UNKNOWN :=
  claim6_removal_set defaultCfg cfOk [torMovie] fs0 [] []
    ⟨["films/Movie.mkv"], [], [("downloads/Movie.mkv", "films/Movie.mkv")]⟩ [7] [[true]]
    (by decide) 7 (by decide)

/-- C7 witness: the season torrent under an always-failing copy oracle
aborts after its first episode, instantiating the theorem at its
one-element failure log. -/
theorem claim7_witness :
    get_torrent_type defaultCfg.strip_chars (get_video_files torSeason.files) =
      .ok (.SEASON, some (.series sdShow)) ∧
    processOne defaultCfg cfBad fs0 torSeason =
      .ok (false, [false], ⟨["series/Show/s01"], ["series/Show/s01"], []⟩) ∧
    ([] : List Bool) = [] :=
  ⟨tt_torSeason, processOne_torSeason,
    claim7_season_abort defaultCfg cfBad fs0 torSeason .SEASON (some (.series sdShow))
      false [false] ⟨["series/Show/s01"], ["series/Show/s01"], []⟩
      tt_torSeason (Or.inl rfl) processOne_torSeason [] [] rfl⟩

/-!
## Dry-run behaviour (C9)
-/

/-- The number of episode dictionaries across all seasons of a grouping. -/
def totalEpisodes (ss : List (String × List EpisodeData)) : Nat :=
  (ss.map (fun p => p.2.length)).sum

/-- In dry-run mode `get_season_dir` never changes the filesystem. -/
lemma get_season_dir_dry (cfg : Config) (st : FsState) (a b : String)
    (hdry : cfg.dry_run = true) : (get_season_dir cfg st a b).2 = st := by
  simp [get_season_dir, hdry]

/-- In dry-run mode `move_torrent_file` reports success and never changes
the filesystem. -/
lemma move_torrent_file_dry (cfg : Config) (cf : String → String → Bool)
    (st : FsState) (src tdir : String) (hdry : cfg.dry_run = true) :
    move_torrent_file cfg cf st src tdir = (true, st) := by
  simp [move_torrent_file, hdry]

lemma relocateOneEpisode_dry (cfg : Config) (cf : String → String → Bool)
    (st : FsState) (ep : EpisodeData) (hdry : cfg.dry_run = true) :
    relocateOneEpisode cfg cf st ep = (true, st) := by
  unfold relocateOneEpisode
  rw [get_season_dir_dry cfg st _ _ hdry]
  exact move_torrent_file_dry cfg cf st _ _ hdry

/-- In dry-run mode the episode loop relocates nothing, reports every
attempt as successful and never breaks. -/
lemma relocateEpisodes_dry (cfg : Config) (cf : String → String → Bool)
    (hdry : cfg.dry_run = true) :
    ∀ (eps : List EpisodeData) (st : FsState) (moved : Bool) (log : List Bool),
      relocateEpisodes cfg cf st eps moved log =
        (false, moved || !eps.isEmpty, log ++ List.replicate eps.length true, st) := by
  intro eps
  induction eps with
  | nil =>
    intro st moved log
    unfold relocateEpisodes
    simp
  | cons ep rest ih =>
    intro st moved log
    unfold relocateEpisodes
    rw [relocateOneEpisode_dry cfg cf st ep hdry]
    rw [if_pos rfl]
    rw [ih st true (log ++ [true])]
    simp [List.replicate_succ]

/-- In dry-run mode the season loop relocates nothing and reports success
for every episode of every season. -/
lemma relocateSeasons_dry (cfg : Config) (cf : String → String → Bool)
    (hdry : cfg.dry_run = true) :
    ∀ (ss : List (String × List EpisodeData)) (st : FsState) (moved : Bool)
      (log : List Bool),
      relocateSeasons cfg cf st ss moved log =
        (moved || (totalEpisodes ss != 0),
          log ++ List.replicate (totalEpisodes ss) true, st) := by
  intro ss
  induction ss with
  | nil =>
    intro st moved log
    unfold relocateSeasons
    simp [totalEpisodes]
  | cons season rest ih =>
    intro st moved log
    have step : relocateSeasons cfg cf st (season :: rest) moved log =
        relocateSeasons cfg cf st rest (moved || !season.2.isEmpty)
          (log ++ List.replicate season.2.length true) := by
      conv_lhs => unfold relocateSeasons
      rw [relocateEpisodes_dry cfg cf hdry season.2 st moved log]
    rw [step, ih]
    have htot : totalEpisodes (season :: rest) = season.2.length + totalEpisodes rest := by
      simp [totalEpisodes]
    have hbool : ((moved || !season.2.isEmpty) || (totalEpisodes rest != 0)) =
        (moved || (totalEpisodes (season :: rest) != 0)) := by
      rw [htot, Bool.or_assoc]
      rcases season.2 with _ | ⟨e, es⟩
      · simp
      · simp only [List.isEmpty_cons, Bool.not_false, Bool.true_or, List.length_cons]
        have : (e :: es).length + totalEpisodes rest ≠ 0 := by simp
        simp [this]
    rw [hbool, htot, List.replicate_add, List.append_assoc]

/-- Under a failure-free copy oracle every relocation reports success. -/
lemma move_true_of_nofail (cfg : Config) (cf : String → String → Bool)
    (hcf : ∀ a b, cf a b = false) (st : FsState) (src tdir : String) :
    (move_torrent_file cfg cf st src tdir).1 = true := by
  simp only [move_torrent_file, hcf]
  split
  · rfl
  · split <;> rfl

/-- In dry-run mode every relocation reports success. -/
lemma move_true_of_dry (cfg : Config) (cf : String → String → Bool)
    (hdry : cfg.dry_run = true) (st : FsState) (src tdir : String) :
    (move_torrent_file cfg cf st src tdir).1 = true := by
  rw [move_torrent_file_dry cfg cf st src tdir hdry]

/-- When every relocation succeeds, the episode loop reports all successes,
never breaks, and only the filesystem state depends on the mode. -/
lemma relocateEpisodes_nofail (cfg : Config) (cf : String → String → Bool)
    (hmove : ∀ (st : FsState) (src tdir : String),
      (move_torrent_file cfg cf st src tdir).1 = true) :
    ∀ (eps : List EpisodeData) (st : FsState) (moved : Bool) (log : List Bool),
      ∃ st', relocateEpisodes cfg cf st eps moved log =
        (false, moved || !eps.isEmpty, log ++ List.replicate eps.length true, st') := by
  intro eps
  induction eps with
  | nil =>
    intro st moved log
    exact ⟨st, by unfold relocateEpisodes; simp⟩
  | cons ep rest ih =>
    intro st moved log
    have h1 : (relocateOneEpisode cfg cf st ep).1 = true := by
      unfold relocateOneEpisode
      exact hmove _ _ _
    obtain ⟨st', hrec⟩ := ih (relocateOneEpisode cfg cf st ep).2 true (log ++ [true])
    refine ⟨st', ?_⟩
    unfold relocateEpisodes
    rw [h1, if_pos rfl, hrec]
    simp [List.replicate_succ]

/-- When every relocation succeeds, the season loop reports one success per
episode across all seasons, and only the state depends on the mode. -/
lemma relocateSeasons_nofail (cfg : Config) (cf : String → String → Bool)
    (hmove : ∀ (st : FsState) (src tdir : String),
      (move_torrent_file cfg cf st src tdir).1 = true) :
    ∀ (ss : List (String × List EpisodeData)) (st : FsState) (moved : Bool)
      (log : List Bool),
      ∃ st', relocateSeasons cfg cf st ss moved log =
        (moved || (totalEpisodes ss != 0),
          log ++ List.replicate (totalEpisodes ss) true, st') := by
  intro ss
  induction ss with
  | nil =>
    intro st moved log
    exact ⟨st, by unfold relocateSeasons; simp [totalEpisodes]⟩
  | cons season rest ih =>
    intro st moved log
    obtain ⟨st1, h1⟩ := relocateEpisodes_nofail cfg cf hmove season.2 st moved log
    obtain ⟨st', hrec⟩ :=
      ih st1 (moved || !season.2.isEmpty) (log ++ List.replicate season.2.length true)
    refine ⟨st', ?_⟩
    have step : relocateSeasons cfg cf st (season :: rest) moved log =
        relocateSeasons cfg cf st1 rest (moved || !season.2.isEmpty)
          (log ++ List.replicate season.2.length true) := by
      conv_lhs => unfold relocateSeasons
      rw [h1]
    rw [step, hrec]
    have htot : totalEpisodes (season :: rest) = season.2.length + totalEpisodes rest := by
      simp [totalEpisodes]
    have hbool : ((moved || !season.2.isEmpty) || (totalEpisodes rest != 0)) =
        (moved || (totalEpisodes (season :: rest) != 0)) := by
      rw [htot, Bool.or_assoc]
      rcases season.2 with _ | ⟨e, es⟩
      · simp
      · simp only [List.isEmpty_cons, Bool.not_false, Bool.true_or, List.length_cons]
        have : (e :: es).length + totalEpisodes rest ≠ 0 := by simp
        simp [this]
    rw [hbool, htot, List.replicate_add, List.append_assoc]

/-- Forget the filesystem state of a loop-body result, keeping the decisions
(`moved` and the per-file success flags). -/
def resultMeta : Except Unit (Bool × List Bool × FsState) → Except Unit (Bool × List Bool)
  | .error e => .error e
  | .ok (m, log, _) => .ok (m, log)

/-- The decisions of the relocation dispatch when every relocation succeeds:
a pure function of the classification alone. -/
def classifiedMeta : TorrentType → Option TypeData → List FileInfo →
    Except Unit (Bool × List Bool)
  | .MOVIE, _, _ :: _ => .ok (true, [true])
  | .MOVIE, _, [] => .error ()
  | .MOVIE_WITH_SAMPLE, _, _ :: _ :: _ => .ok (true, [true])
  | .MOVIE_WITH_SAMPLE, _, _ => .error ()
  | .EPISODE, some (.episode _), _ => .ok (true, [true])
  | .EPISODE, _, _ => .error ()
  | .SEASON, some (.series sd), _ =>
    .ok ((totalEpisodes sd.seasons != 0), List.replicate (totalEpisodes sd.seasons) true)
  | .SEASON, _, _ => .error ()
  | .SERIES, some (.series sd), _ =>
    .ok ((totalEpisodes sd.seasons != 0), List.replicate (totalEpisodes sd.seasons) true)
  | .SERIES, _, _ => .error ()
  | .UNKNOWN, _, _ => .ok (false, [])

/-- The decisions of one loop-body iteration when every relocation succeeds:
a pure function of the torrent and the configured strip characters. -/
def processOneMeta (strip : List Char) (t : Torrent) : Except Unit (Bool × List Bool) :=
  if TORRENT_COMPLETE_STATUS.contains t.status then
    if (get_video_files t.files).length ≠ 0 then
      match get_torrent_type strip (get_video_files t.files) with
      | .error e => .error e
      | .ok (torrent_type, type_data) =>
        classifiedMeta torrent_type type_data (get_video_files t.files)
    else .ok (false, [])
  else .ok (false, [])

/-- When every relocation succeeds, the dispatch's decisions do not depend
on the filesystem state or the mode. -/
lemma processClassified_meta (cfg : Config) (cf : String → String → Bool)
    (hmove : ∀ (st : FsState) (src tdir : String),
      (move_torrent_file cfg cf st src tdir).1 = true)
    (st : FsState) (tt : TorrentType) (td : Option TypeData) (vf : List FileInfo) :
    resultMeta (processClassified cfg cf st tt td vf) = classifiedMeta tt td vf := by
  cases tt
  case UNKNOWN => rfl
  case MOVIE =>
    rcases vf with _ | ⟨v0, vrest⟩
    · rfl
    · simp only [processClassified, classifiedMeta, singleMove, resultMeta]
      rw [hmove st v0.name cfg.dir_film]
  case MOVIE_WITH_SAMPLE =>
    rcases vf with _ | ⟨v0, _ | ⟨v1, vrest⟩⟩
    · rfl
    · rfl
    · simp only [processClassified, classifiedMeta, singleMove, resultMeta]
      rw [hmove st (sampleSelect v0 v1).name cfg.dir_film]
  case EPISODE =>
    rcases td with _ | ⟨e⟩ | ⟨sd⟩
    · rfl
    · simp only [processClassified, classifiedMeta, resultMeta]
      have : (relocateOneEpisode cfg cf st e).1 = true := by
        unfold relocateOneEpisode
        exact hmove _ _ _
      rw [this]
    · rfl
  case SEASON =>
    rcases td with _ | ⟨e⟩ | ⟨sd⟩
    · rfl
    · rfl
    · obtain ⟨st', hs⟩ := relocateSeasons_nofail cfg cf hmove sd.seasons st false []
      simp only [processClassified, classifiedMeta]
      rw [hs]
      simp [resultMeta]
  case SERIES =>
    rcases td with _ | ⟨e⟩ | ⟨sd⟩
    · rfl
    · rfl
    · obtain ⟨st', hs⟩ := relocateSeasons_nofail cfg cf hmove sd.seasons st false []
      simp only [processClassified, classifiedMeta]
      rw [hs]
      simp [resultMeta]

/-- When every relocation succeeds, the loop body's decisions are the pure
`processOneMeta`. -/
lemma processOne_meta (cfg : Config) (cf : String → String → Bool)
    (hmove : ∀ (st : FsState) (src tdir : String),
      (move_torrent_file cfg cf st src tdir).1 = true)
    (st : FsState) (t : Torrent) :
    resultMeta (processOne cfg cf st t) = processOneMeta cfg.strip_chars t := by
  unfold processOne processOneMeta
  by_cases h1 : TORRENT_COMPLETE_STATUS.contains t.status = true
  · simp only [if_pos h1]
    by_cases h2 : (get_video_files t.files).length ≠ 0
    · simp only [if_pos h2]
      cases htt : get_torrent_type cfg.strip_chars (get_video_files t.files) with
      | error e => rfl
      | ok r =>
        obtain ⟨tt, td⟩ := r
        exact processClassified_meta cfg cf hmove st tt td _
    · simp only [if_neg h2]
      rfl
  · simp only [if_neg h1]
    rfl

/-- The torrent loop with the filesystem state forgotten: the removal ids
and per-torrent success flags when every relocation succeeds. -/
def runMeta (strip : List Char) :
    List Torrent → List Nat → List (List Bool) → Except Unit (List Nat × List (List Bool))
  | [], ids, logs => .ok (ids, logs)
  | t :: rest, ids, logs =>
    match processOneMeta strip t with
    | .error e => .error e
    | .ok (m, log) =>
      runMeta strip rest (if m && t.is_finished then ids ++ [t.id] else ids) (logs ++ [log])

/-- Forget the filesystem state of a full torrent-loop result. -/
def runProj : Except Unit (FsState × List Nat × List (List Bool)) →
    Except Unit (List Nat × List (List Bool))
  | .error e => .error e
  | .ok (_, ids, logs) => .ok (ids, logs)

/-- Forget the filesystem state of a whole run's result, keeping the removal
ids and the per-torrent flags. -/
def mainProj :
    Except Unit (FsState × List Nat × List (List Bool) × Option (List Nat)) →
    Except Unit (List Nat × List (List Bool))
  | .error e => .error e
  | .ok (_, ids, logs, _) => .ok (ids, logs)

/-- When every relocation succeeds, the ids and flags of the torrent loop
are the pure `runMeta`, independent of state and mode. -/
lemma processTorrents_meta (cfg : Config) (cf : String → String → Bool)
    (hmove : ∀ (st : FsState) (src tdir : String),
      (move_torrent_file cfg cf st src tdir).1 = true) :
    ∀ (ts : List Torrent) (st : FsState) (ids : List Nat) (logs : List (List Bool)),
      runProj (processTorrents cfg cf st ts ids logs) = runMeta cfg.strip_chars ts ids logs := by
  intro ts
  induction ts with
  | nil => intro st ids logs; rfl
  | cons t rest ih =>
    intro st ids logs
    cases hpo : processOne cfg cf st t with
    | error e =>
      have hmeta : processOneMeta cfg.strip_chars t = .error e := by
        rw [← processOne_meta cfg cf hmove st t, hpo]
        rfl
      conv_lhs => unfold processTorrents
      conv_rhs => unfold runMeta
      rw [hpo, hmeta]
      rfl
    | ok r =>
      obtain ⟨m, log, st1⟩ := r
      have hmeta : processOneMeta cfg.strip_chars t = .ok (m, log) := by
        rw [← processOne_meta cfg cf hmove st t, hpo]
        rfl
      conv_lhs => unfold processTorrents
      conv_rhs => unfold runMeta
      rw [hpo, hmeta]
      exact ih st1 _ _

/-- Whatever the torrent loop returns, `main_run` returns its components;
projecting away the state and the removal request recovers the loop's ids
and flags. -/
lemma mainProj_main_run (cfg : Config) (cf : String → String → Bool)
    (st0 : FsState) (ts : List Torrent) :
    mainProj (main_run cfg cf st0 ts) = runProj (processTorrents cfg cf st0 ts [] []) := by
  unfold main_run
  cases h : processTorrents cfg cf st0 ts [] [] with
  | error e => rfl
  | ok r =>
    obtain ⟨st, ids, logs⟩ := r
    rfl

/-- In dry-run mode the relocation dispatch never changes the filesystem. -/
lemma processClassified_dry_state (cfg : Config) (cf : String → String → Bool)
    (st : FsState) (tt : TorrentType) (td : Option TypeData) (vf : List FileInfo)
    (m : Bool) (log : List Bool) (st' : FsState) (hdry : cfg.dry_run = true)
    (h : processClassified cfg cf st tt td vf = .ok (m, log, st')) : st' = st := by
  cases tt
  case UNKNOWN =>
    simp only [processClassified, Except.ok.injEq, Prod.mk.injEq] at h
    exact h.2.2.symm
  case MOVIE =>
    rcases vf with _ | ⟨v0, vrest⟩
    · simp only [processClassified] at h
      exact Except.noConfusion h
    · simp only [processClassified, singleMove, move_torrent_file_dry cfg cf st _ _ hdry,
        Except.ok.injEq, Prod.mk.injEq] at h
      exact h.2.2.symm
  case MOVIE_WITH_SAMPLE =>
    rcases vf with _ | ⟨v0, _ | ⟨v1, vrest⟩⟩
    · simp only [processClassified] at h
      exact Except.noConfusion h
    · simp only [processClassified] at h
      exact Except.noConfusion h
    · simp only [processClassified, singleMove, move_torrent_file_dry cfg cf st _ _ hdry,
        Except.ok.injEq, Prod.mk.injEq] at h
      exact h.2.2.symm
  case EPISODE =>
    rcases td with _ | ⟨e⟩ | ⟨sd⟩
    · simp only [processClassified] at h
      exact Except.noConfusion h
    · simp only [processClassified, relocateOneEpisode_dry cfg cf st e hdry,
        Except.ok.injEq, Prod.mk.injEq] at h
      exact h.2.2.symm
    · simp only [processClassified] at h
      exact Except.noConfusion h
  case SEASON =>
    rcases td with _ | ⟨e⟩ | ⟨sd⟩
    · simp only [processClassified] at h
      exact Except.noConfusion h
    · simp only [processClassified] at h
      exact Except.noConfusion h
    · simp only [processClassified,
        relocateSeasons_dry cfg cf hdry sd.seasons st false [],
        Except.ok.injEq, Prod.mk.injEq] at h
      exact h.2.2.symm
  case SERIES =>
    rcases td with _ | ⟨e⟩ | ⟨sd⟩
    · simp only [processClassified] at h
      exact Except.noConfusion h
    · simp only [processClassified] at h
      exact Except.noConfusion h
    · simp only [processClassified,
        relocateSeasons_dry cfg cf hdry sd.seasons st false [],
        Except.ok.injEq, Prod.mk.injEq] at h
      exact h.2.2.symm

/-- In dry-run mode the whole loop body never changes the filesystem. -/
lemma processOne_dry_state (cfg : Config) (cf : String → String → Bool)
    (st : FsState) (t : Torrent) (m : Bool) (log : List Bool) (st' : FsState)
    (hdry : cfg.dry_run = true)
    (h : processOne cfg cf st t = .ok (m, log, st')) : st' = st := by
  unfold processOne at h
  split at h
  case isFalse =>
    simp only [Except.ok.injEq, Prod.mk.injEq] at h
    exact h.2.2.symm
  case isTrue =>
  split at h
  case isFalse =>
    simp only [Except.ok.injEq, Prod.mk.injEq] at h
    exact h.2.2.symm
  case isTrue =>
  split at h
  case h_1 => exact Except.noConfusion h
  case h_2 tt td heq =>
    exact processClassified_dry_state cfg cf st tt td _ m log st' hdry h

/-- In dry-run mode the torrent loop never changes the filesystem. -/
lemma processTorrents_dry_state (cfg : Config) (cf : String → String → Bool)
    (hdry : cfg.dry_run = true) :
    ∀ (ts : List Torrent) (st : FsState) (ids : List Nat) (logs : List (List Bool))
      (st' : FsState) (ids' : List Nat) (logs' : List (List Bool)),
      processTorrents cfg cf st ts ids logs = .ok (st', ids', logs') → st' = st := by
  intro ts
  induction ts with
  | nil =>
    intro st ids logs st' ids' logs' h
    unfold processTorrents at h
    simp only [Except.ok.injEq, Prod.mk.injEq] at h
    exact h.1.symm
  | cons t rest ih =>
    intro st ids logs st' ids' logs' h
    unfold processTorrents at h
    split at h
    case h_1 => exact Except.noConfusion h
    case h_2 moved log st1 heq =>
      rw [ih st1 _ _ _ _ _ h]
      exact processOne_dry_state cfg cf st t moved log st1 hdry heq

/-- In dry-run mode the run leaves the filesystem untouched and issues no
removal request. -/
lemma main_run_dry (cfg : Config) (cf : String → String → Bool) (st0 : FsState)
    (ts : List Torrent) (st : FsState) (ids : List Nat) (logs : List (List Bool))
    (rm : Option (List Nat)) (hdry : cfg.dry_run = true)
    (h : main_run cfg cf st0 ts = .ok (st, ids, logs, rm)) : st = st0 ∧ rm = none := by
  unfold main_run at h
  split at h
  case h_1 => exact Except.noConfusion h
  case h_2 st1 ids1 logs1 heq =>
    simp only [Except.ok.injEq, Prod.mk.injEq] at h
    obtain ⟨h1, _, _, h4⟩ := h
    constructor
    · rw [← h1]
      exact processTorrents_dry_state cfg cf hdry ts st0 [] [] st1 ids1 logs1 heq
    · rw [← h4, if_neg]
      rintro ⟨_, hc⟩
      rw [hdry] at hc
      exact Bool.noConfusion hc

/-- C9 amended: (1) with the dry-run flag set, a completed run leaves the
filesystem exactly as it was — no directory created, no file copied — and
never issues a removal request; (2) the classification decisions, the
per-file success flags and the removal ids of a dry run coincide with those
of a non-dry run in which no copy operation fails (under an actual copy
failure they can differ — see the counterexample). -/
theorem claim9_dry_run :
    (∀ (cfg : Config) (cf : String → String → Bool) (st0 : FsState) (ts : List Torrent)
      (st : FsState) (ids : List Nat) (logs : List (List Bool)) (rm : Option (List Nat)),
      cfg.dry_run = true →
      main_run cfg cf st0 ts = .ok (st, ids, logs, rm) →
      st = st0 ∧ rm = none) ∧
    (∀ (cfg : Config) (cf : String → String → Bool) (st0 st1 : FsState) (ts : List Torrent),
      (∀ a b, cf a b = false) →
      mainProj (main_run { cfg with dry_run := true } cf st0 ts) =
      mainProj (main_run { cfg with dry_run := false } cf st1 ts)) := by
  constructor
  · intro cfg cf st0 ts st ids logs rm hdry h
    exact main_run_dry cfg cf st0 ts st ids logs rm hdry h
  · intro cfg cf st0 st1 ts hcf
    rw [mainProj_main_run, mainProj_main_run]
    rw [processTorrents_meta { cfg with dry_run := true } cf
      (fun st src tdir => move_true_of_dry _ cf rfl st src tdir) ts st0 [] []]
    rw [processTorrents_meta { cfg with dry_run := false } cf
      (fun st src tdir => move_true_of_nofail _ cf hcf st src tdir) ts st1 [] []]

/-- C9 counterexample: under a failing copy, the per-file success flag of a
real run is `false` while the dry run — which skips the copy — reports
`true`: the flags are not always "exactly as in a non-dry run". -/
theorem claim9_counterexample :
    processOne { defaultCfg with dry_run := false } cfBad fs0 torMovie =
      .ok (false, [false], fs0) ∧
    processOne { defaultCfg with dry_run := true } cfBad fs0 torMovie =
      .ok (true, [true], fs0) := by
  constructor <;> decide

/-- C9 witness: a dry run over one movie torrent instantiates both parts of
the amended statement. -/
theorem claim9_witness :
    main_run { defaultCfg with dry_run := true } cfOk fs0 [torMovie] =
      .ok (fs0, [7], [[true]], none) ∧
    (fs0 = fs0 ∧ (none : Option (List Nat)) = none) ∧
    mainProj (main_run { defaultCfg with dry_run := true } cfOk fs0 [torMovie]) =
      mainProj (main_run { defaultCfg with dry_run := false } cfOk fs0 [torMovie]) :=
  ⟨by decide,
    claim9_dry_run.1 { defaultCfg with dry_run := true } cfOk fs0 [torMovie]
      fs0 [7] [[true]] none rfl (by decide),
    claim9_dry_run.2 defaultCfg cfOk fs0 fs0 [torMovie] (fun a b => rfl)⟩
